import Mathlib

/-!
Shallow embedding of `src/src/xkart_backend/src/lib.rs` (xkart backend canister).

Modelling conventions:
* `Principal` is modelled as `Nat`; the canister's own principal (`ic_cdk::id()`)
  is the fixed constant `canister_id`.
* Rust `HashMap` stores are modelled as association lists (`List (k × v)`) with
  `alookup` / `aset`; `aset` overwrites the first binding of a key or appends a
  fresh one, so `List.length` agrees with `HashMap::len` on states built from
  the empty map.
* `u64` arithmetic wraps modulo `2 ^ 64` (release-build semantics of the
  canister); every `+=` on a `u64` in the source is rendered with `wrapAdd`.
  Subtractions are guarded in the source and stay exact.
* Each `#[update]` method becomes a pure function `… → State → Result × State`;
  an `Err` return commits the mutations already performed (Internet Computer
  semantics: only traps roll back, `Err` replies do not).
* `end_race` calls `distribute_race_rewards` while still holding the
  `borrow_mut` guard on the `RACES` `RefCell`; the callee immediately
  re-borrows `RACES`, which panics (`BorrowMutError`) and traps the message,
  rolling back all of its writes. `end_race` is therefore modelled with an
  explicit trap outcome (`EndRaceOutcome.trap`) and an unchanged state.
* `ic_cdk::caller()` and `ic_cdk::api::time()` become explicit `caller` / `now`
  arguments.
* The reward computation in `distribute_race_rewards` uses `f64`; it is
  modelled exactly by rationals together with round-to-nearest-even at 53
  significant bits (`roundF64`), and `as u64` as truncation (saturating).
-/

/-- Principals are opaque identifiers; modelled as naturals. -/
abbrev Principal := Nat

/-- The canister's own principal, `ic_cdk::id()`. -/
def canister_id : Principal := 0

/-- `2 ^ 64`, the modulus of `u64` arithmetic. -/
def U64MOD : Nat := 2 ^ 64

/-- Wrapping `u64` addition (release-build overflow semantics). -/
def wrapAdd (x y : Nat) : Nat := (x + y) % U64MOD

/-- `struct Account { owner, subaccount }`; the 32-byte subaccount is modelled
as an abstract `Option Nat`. -/
structure Account where
  owner : Principal
  subaccount : Option Nat
deriving DecidableEq, Repr

/-- `struct TransferArgs` of the ICRC-1 transfer endpoint. -/
structure TransferArgs where
  from_subaccount : Option Nat
  toAcc : Account
  amount : Nat
  fee : Option Nat
  memo : Option (List Nat)
  created_at_time : Option Nat
deriving DecidableEq, Repr

/-- `enum TransferError`. -/
inductive TransferError where
  | BadFee (expected_fee : Nat)
  | BadBurn (min_burn_amount : Nat)
  | InsufficientFunds (balance : Nat)
  | TooOld
  | CreatedInFuture (ledger_time : Nat)
  | Duplicate (duplicate_of : Nat)
  | TemporarilyUnavailable
  | GenericError (error_code : Nat) (message : String)
deriving DecidableEq, Repr

/-- `enum AssetType`. -/
inductive AssetType where
  | Arena
  | Driver
  | Kart
deriving DecidableEq, Repr

/-- `enum CampaignStatus`. -/
inductive CampaignStatus where
  | Active
  | Completed
  | Failed
deriving DecidableEq, Repr

/-- `struct TokenizationCampaign`; the `investors` HashMap is an assoc list. -/
structure TokenizationCampaign where
  id : Nat
  name : String
  description : String
  target_amount : Nat
  current_amount : Nat
  asset_type : AssetType
  status : CampaignStatus
  investors : List (Principal × Nat)
  end_time : Nat
deriving DecidableEq, Repr

/-- `enum RaceStatus`. -/
inductive RaceStatus where
  | Upcoming
  | InProgress
  | Completed
deriving DecidableEq, Repr

/-- `struct RaceParticipant`. -/
structure RaceParticipant where
  player : Principal
  kart_id : Nat
  driver_id : Nat
  current_position : Nat
  lap_times : List Nat
deriving DecidableEq, Repr

/-- `struct Bet`. -/
structure Bet where
  race_id : Nat
  bettor : Principal
  amount : Nat
  prediction : Principal
deriving DecidableEq, Repr

/-- `struct Race`. -/
structure Race where
  id : Nat
  name : String
  arena_id : Nat
  participants : List RaceParticipant
  status : RaceStatus
  winner : Option Principal
  bets : List Bet
  start_time : Option Nat
  end_time : Option Nat
  entry_fee : Nat
  total_prize_pool : Nat
deriving DecidableEq, Repr

/-- `enum NFTType`. -/
inductive NFTType where
  | Driver
  | Kart
  | Arena
deriving DecidableEq, Repr

/-- `enum Rarity`. -/
inductive Rarity where
  | Common
  | Rare
  | Legendary
deriving DecidableEq, Repr

/-- `struct NFTMetadata`; the attributes HashMap is an assoc list. -/
structure NFTMetadata where
  name : String
  description : String
  image_url : String
  attributes : List (String × String)
deriving DecidableEq, Repr

/-- `struct Transaction` (NFT transaction history entry). -/
structure Transaction where
  timestamp : Nat
  fromP : Principal
  toP : Principal
  price : Option Nat
deriving DecidableEq, Repr

/-- `struct NFT`. -/
structure NFT where
  id : Nat
  owner : Principal
  nft_type : NFTType
  metadata : NFTMetadata
  listed_price : Option Nat
  rarity : Rarity
  creation_time : Nat
  transaction_history : List Transaction
deriving DecidableEq, Repr

/-- Association-list lookup (first binding wins, like `HashMap::get`). -/
def alookup {α β : Type} [DecidableEq α] : List (α × β) → α → Option β
  | [], _ => none
  | (k, v) :: rest, a => if k = a then some v else alookup rest a

/-- Lookup with default `d` (`.cloned().unwrap_or(d)` / `entry(k).or_insert(d)`). -/
def alookupD {α β : Type} [DecidableEq α] (l : List (α × β)) (a : α) (d : β) : β :=
  (alookup l a).getD d

/-- Association-list store: overwrite the first binding of `a`, or append a
fresh binding (`HashMap::insert` / mutation through `entry`/`get_mut`). -/
def aset {α β : Type} [DecidableEq α] : List (α × β) → α → β → List (α × β)
  | [], a, v => [(a, v)]
  | (k, w) :: rest, a, v => if k = a then (a, v) :: rest else (k, w) :: aset rest a v

/-- The whole canister state: the six `thread_local!` stores, plus
`mintedRewards`, the event log of the modelled external reward-minting
collaborator (see `mint_campaign_rewards`). -/
structure State where
  balances : List (Account × Nat)
  totalSupply : Nat
  races : List (Nat × Race)
  nfts : List (Nat × NFT)
  campaigns : List (Nat × TokenizationCampaign)
  admins : List Principal
  mintedRewards : List Nat
deriving DecidableEq, Repr

deriving instance DecidableEq for Except

/-- The state with every store empty. -/
def emptyState : State :=
  { balances := [], totalSupply := 0, races := [], nfts := [], campaigns := []
    admins := [], mintedRewards := [] }

/-- `fn init()`: push the deploying caller as the first admin. -/
def init (caller : Principal) (s : State) : State :=
  { s with admins := s.admins ++ [caller] }

/-- The post-deployment initial state: `init` applied to the empty state. -/
def initState (deployer : Principal) : State := init deployer emptyState

/-- `fn is_minting_authority(principal) -> bool`. -/
def is_minting_authority (p : Principal) (s : State) : Bool := s.admins.contains p

/-- `fn is_admin(principal) -> bool`. -/
def is_admin (p : Principal) (s : State) : Bool := s.admins.contains p

/-- Balance of an account in a balances store, defaulting to 0. -/
def balD (bs : List (Account × Nat)) (a : Account) : Nat := alookupD bs a 0

/-- `fn icrc1_transfer(args) -> Result<u64, TransferError>`. -/
def icrc1_transfer (caller : Principal) (args : TransferArgs) (s : State) :
    Except TransferError Nat × State :=
  let from_account : Account := { owner := caller, subaccount := args.from_subaccount }
  let from_balance := balD s.balances from_account
  if from_balance < args.amount then
    (Except.error (TransferError.InsufficientFunds from_balance), s)
  else
    let b1 := aset s.balances from_account (from_balance - args.amount)
    let b2 := aset b1 args.toAcc (wrapAdd (balD b1 args.toAcc) args.amount)
    (Except.ok 0, { s with balances := b2 })

/-- `fn icrc1_balance_of(account) -> u64`. -/
def icrc1_balance_of (account : Account) (s : State) : Nat := balD s.balances account

/-- `fn icrc1_total_supply() -> u64`. -/
def icrc1_total_supply (s : State) : Nat := s.totalSupply

/-- `fn icrc1_mint(to, amount) -> Result<(), String>`. -/
def icrc1_mint (caller : Principal) (toAcc : Account) (amount : Nat) (s : State) :
    Except String Unit × State :=
  if ¬ is_minting_authority caller s then
    (Except.error "Not authorized to mint tokens", s)
  else
    let s1 := { s with balances := aset s.balances toAcc (wrapAdd (balD s.balances toAcc) amount) }
    let s2 := { s1 with totalSupply := wrapAdd s1.totalSupply amount }
    (Except.ok (), s2)

/-- The `String` carried when a `TransferError` is propagated through `?` into a
`Result<_, String>` function (the conversion itself is not in the source file;
only the error case identity matters to the embedding). -/
def transferErrorMessage : TransferError → String
  | TransferError.InsufficientFunds _ => "InsufficientFunds"
  | TransferError.BadFee _ => "BadFee"
  | TransferError.BadBurn _ => "BadBurn"
  | TransferError.TooOld => "TooOld"
  | TransferError.CreatedInFuture _ => "CreatedInFuture"
  | TransferError.Duplicate _ => "Duplicate"
  | TransferError.TemporarilyUnavailable => "TemporarilyUnavailable"
  | TransferError.GenericError _ m => m

/-- `fn create_tokenization_campaign(name, description, target_amount, asset_type, duration)`. -/
def create_tokenization_campaign (caller : Principal) (now : Nat)
    (name description : String) (target_amount : Nat) (asset_type : AssetType)
    (duration : Nat) (s : State) : Except String Nat × State :=
  if ¬ is_admin caller s then
    (Except.error "Only admins can create tokenization campaigns", s)
  else
    let campaign_id := s.campaigns.length + 1
    let new_campaign : TokenizationCampaign :=
      { id := campaign_id, name := name, description := description
        target_amount := target_amount, current_amount := 0
        asset_type := asset_type, status := CampaignStatus.Active
        investors := [], end_time := wrapAdd now duration }
    (Except.ok campaign_id,
      { s with campaigns := aset s.campaigns campaign_id new_campaign })

/-- Modelled from the spec: `mint_campaign_rewards` is called by
`invest_in_campaign` when a campaign completes but is not defined in the source
file. Per the spec it triggers reward issuance by the external collaborator
("NFT/token minting keyed by contribution share") and must run at most once.
The model records each issuance event in the `mintedRewards` log (the external
collaborator touches neither the campaign store nor the error path). -/
def mint_campaign_rewards (campaign_id : Nat) (s : State) : Except String State :=
  Except.ok { s with mintedRewards := s.mintedRewards ++ [campaign_id] }

/-- `fn invest_in_campaign(campaign_id, amount) -> Result<(), String>`. -/
def invest_in_campaign (caller : Principal) (now : Nat) (campaign_id amount : Nat)
    (s : State) : Except String Unit × State :=
  match alookup s.campaigns campaign_id with
  | none => (Except.error "Campaign not found", s)
  | some campaign =>
    if campaign.status ≠ CampaignStatus.Active then
      (Except.error "Campaign is not active", s)
    else if campaign.end_time < now then
      let failed : TokenizationCampaign := { campaign with status := CampaignStatus.Failed }
      (Except.error "Campaign has ended",
        { s with campaigns := aset s.campaigns campaign_id failed })
    else
      match icrc1_transfer caller
        { from_subaccount := none
          toAcc := { owner := canister_id, subaccount := none }
          amount := amount, fee := none, memo := none, created_at_time := none } s with
      | (Except.error e, s1) => (Except.error (transferErrorMessage e), s1)
      | (Except.ok _, s1) =>
        let campaign1 : TokenizationCampaign :=
          { campaign with
              investors := aset campaign.investors caller
                (wrapAdd (alookupD campaign.investors caller 0) amount)
              current_amount := wrapAdd campaign.current_amount amount }
        let s2 := { s1 with campaigns := aset s1.campaigns campaign_id campaign1 }
        if campaign1.target_amount ≤ campaign1.current_amount then
          let done : TokenizationCampaign := { campaign1 with status := CampaignStatus.Completed }
          let s3 := { s2 with campaigns := aset s2.campaigns campaign_id done }
          match mint_campaign_rewards campaign_id s3 with
          | Except.error e => (Except.error e, s3)
          | Except.ok s4 => (Except.ok (), s4)
        else
          (Except.ok (), s2)

/-- `fn create_race(name, arena_id, entry_fee) -> Result<u64, String>`. -/
def create_race (caller : Principal) (name : String) (arena_id entry_fee : Nat)
    (s : State) : Except String Nat × State :=
  if ¬ is_admin caller s then
    (Except.error "Only admins can create races", s)
  else
    match alookup s.nfts arena_id with
    | none => (Except.error "Arena not found", s)
    | some nft =>
      if nft.nft_type ≠ NFTType.Arena then
        (Except.error "Invalid arena ID", s)
      else
        let race_id := s.races.length + 1
        let new_race : Race :=
          { id := race_id, name := name, arena_id := arena_id
            participants := [], status := RaceStatus.Upcoming, winner := none
            bets := [], start_time := none, end_time := none
            entry_fee := entry_fee, total_prize_pool := 0 }
        (Except.ok race_id, { s with races := aset s.races race_id new_race })

/-- Printed name of an `NFTType` (the `{:?}` Debug rendering). -/
def NFTType.debugName : NFTType → String
  | NFTType.Driver => "Driver"
  | NFTType.Kart => "Kart"
  | NFTType.Arena => "Arena"

/-- `fn verify_nft_ownership(owner, nft_id, expected_type)`. -/
def verify_nft_ownership (owner : Principal) (nft_id : Nat) (expected_type : NFTType)
    (s : State) : Except String Unit :=
  match alookup s.nfts nft_id with
  | none => Except.error "NFT not found"
  | some nft =>
    if nft.owner ≠ owner then
      Except.error "Not the owner of this NFT"
    else if nft.nft_type ≠ expected_type then
      Except.error ("NFT is not a " ++ expected_type.debugName)
    else
      Except.ok ()

/-- `fn join_race(race_id, kart_id, driver_id) -> Result<(), String>`. -/
def join_race (caller : Principal) (race_id kart_id driver_id : Nat) (s : State) :
    Except String Unit × State :=
  match verify_nft_ownership caller kart_id NFTType.Kart s with
  | Except.error e => (Except.error e, s)
  | Except.ok _ =>
  match verify_nft_ownership caller driver_id NFTType.Driver s with
  | Except.error e => (Except.error e, s)
  | Except.ok _ =>
  match alookup s.races race_id with
  | none => (Except.error "Race not found", s)
  | some race =>
    if race.status ≠ RaceStatus.Upcoming then
      (Except.error "Race is not open for joining", s)
    else if race.participants.any (fun p => p.player = caller) then
      (Except.error "Already joined this race", s)
    else
      match icrc1_transfer caller
        { from_subaccount := none
          toAcc := { owner := canister_id, subaccount := none }
          amount := race.entry_fee, fee := none, memo := none
          created_at_time := none } s with
      | (Except.error e, s1) => (Except.error (transferErrorMessage e), s1)
      | (Except.ok _, s1) =>
        let race1 : Race :=
          { race with
              total_prize_pool := wrapAdd race.total_prize_pool race.entry_fee
              participants := race.participants ++
                [{ player := caller, kart_id := kart_id, driver_id := driver_id
                   current_position := 0, lap_times := [] }] }
        (Except.ok (), { s1 with races := aset s1.races race_id race1 })

/-- `participants.iter_mut().find(|p| p.player == player)` followed by
`participant.current_position = position`: update the first matching entry. -/
def setPosition (ps : List RaceParticipant) (player : Principal) (position : Nat) :
    List RaceParticipant :=
  match ps with
  | [] => []
  | p :: rest =>
    if p.player = player then { p with current_position := position } :: rest
    else p :: setPosition rest player position

/-- `participants.iter_mut().find(|p| p.player == player)` followed by
`participant.lap_times.push(time)`: append to the first matching entry. -/
def pushLapTime (ps : List RaceParticipant) (player : Principal) (t : Nat) :
    List RaceParticipant :=
  match ps with
  | [] => []
  | p :: rest =>
    if p.player = player then { p with lap_times := p.lap_times ++ [t] } :: rest
    else p :: pushLapTime rest player t

/-- `fn update_race_progress(race_id, participant_positions, lap_times)`. -/
def update_race_progress (caller : Principal) (race_id : Nat)
    (participant_positions : List (Principal × Nat)) (lap_times : List (Principal × Nat))
    (s : State) : Except String Unit × State :=
  if ¬ is_admin caller s then
    (Except.error "Only admins can update race progress", s)
  else
    match alookup s.races race_id with
    | none => (Except.error "Race not found", s)
    | some race =>
      if race.status ≠ RaceStatus.InProgress then
        (Except.error "Race is not in progress", s)
      else
        let ps1 := participant_positions.foldl
          (fun acc u => setPosition acc u.1 u.2) race.participants
        let ps2 := lap_times.foldl (fun acc u => pushLapTime acc u.1 u.2) ps1
        (Except.ok (),
          { s with races := aset s.races race_id { race with participants := ps2 } })

/-- Structural base-2 logarithm: `log2fuel n n` is the integer part of
log2 of `n` for `n ≥ 1` (fuel-based so the kernel can evaluate it). -/
def log2fuel : Nat → Nat → Nat
  | 0, _ => 0
  | fuel + 1, n => if n ≤ 1 then 0 else log2fuel fuel (n / 2) + 1

/-- Integer part of the base-2 logarithm of a natural number. -/
def log2n (n : Nat) : Nat := log2fuel n n

/-- Does `2 ^ e ≤ a / b` hold, for `a, b ≥ 1`? -/
def pow2LE (e : Int) (a b : Nat) : Bool :=
  match e with
  | Int.ofNat k => b * 2 ^ k ≤ a
  | Int.negSucc k => b ≤ a * 2 ^ (k + 1)

/-- The unique `e` with `2 ^ e ≤ a / b < 2 ^ (e + 1)`, for `a, b ≥ 1`. -/
def flog2 (a b : Nat) : Int :=
  let L : Int := (log2n a : Int) - (log2n b : Int)
  if pow2LE (L + 1) a b then L + 1
  else if pow2LE L a b then L
  else L - 1

/-- Round `A / B` (with `B ≥ 1`) to the nearest integer, ties to even. -/
def rne (A B : Nat) : Nat :=
  let q := A / B
  let r := A % B
  if B < 2 * r then q + 1
  else if 2 * r < B then q
  else if q % 2 = 0 then q else q + 1

/-- A nonnegative IEEE-754 binary64 (`f64`) value, represented exactly as the
dyadic rational `num / 2 ^ shift`. -/
structure F64 where
  num : Nat
  shift : Nat
deriving DecidableEq, Repr

/-- Exact model of rounding the (nonnegative, in-range) rational `a / b` to the
nearest `f64`: round to nearest at 53 significant bits, ties to even. All
values arising in the source stay far from overflow and subnormal range, so
exponent clamping is not modelled. -/
def roundF64 (a b : Nat) : F64 :=
  if a = 0 ∨ b = 0 then { num := 0, shift := 0 }
  else
    match flog2 a b - 52 with
    | Int.ofNat k => { num := rne a (b * 2 ^ k) * 2 ^ k, shift := 0 }
    | Int.negSucc k => { num := rne (a * 2 ^ (k + 1)) b, shift := k + 1 }

/-- `f64` multiplication of exactly-represented operands: the exact product,
correctly rounded. -/
def f64Mul (x y : F64) : F64 := roundF64 (x.num * y.num) (2 ^ (x.shift + y.shift))

/-- `total_prize as f64` (u64-to-f64 conversion rounds to nearest). -/
def natToF64 (n : Nat) : F64 := roundF64 n 1

/-- `as u64` on a nonnegative `f64`: truncate toward zero, saturating. -/
def f64ToU64 (x : F64) : Nat := min (x.num / 2 ^ x.shift) (U64MOD - 1)

/-- The table `[(1, 0.5), (2, 0.3), (3, 0.2)]`; each percentage literal denotes
the `f64` value nearest the decimal fraction, i.e. `roundF64` of it. -/
def reward_percentages : List (Nat × F64) :=
  [(1, roundF64 1 2), (2, roundF64 3 10), (3, roundF64 1 5)]

/-- The reward paid at a given percentage: `(total_prize as f64 * percentage) as u64`. -/
def rewardAmount (total_prize : Nat) (percentage : F64) : Nat :=
  f64ToU64 (f64Mul (natToF64 total_prize) percentage)

/-- The `for (position, percentage) in reward_percentages` loop of
`distribute_race_rewards`: pay each occupied position in turn; a failing
transfer aborts the loop by `?`, keeping the payouts already made. -/
def distributeLoop (caller : Principal) (total_prize : Nat)
    (sorted : List RaceParticipant) :
    List (Nat × F64) → State → Except String Unit × State
  | [], s => (Except.ok (), s)
  | (position, percentage) :: rest, s =>
    match sorted.find? (fun p => p.current_position = position) with
    | none => distributeLoop caller total_prize sorted rest s
    | some participant =>
      match icrc1_transfer caller
        { from_subaccount := none
          toAcc := { owner := participant.player, subaccount := none }
          amount := rewardAmount total_prize percentage
          fee := none, memo := none, created_at_time := none } s with
      | (Except.error e, s1) => (Except.error (transferErrorMessage e), s1)
      | (Except.ok _, s1) => distributeLoop caller total_prize sorted rest s1

/-- `fn distribute_race_rewards(race_id) -> Result<(), String>`. The Rust
`sort_by_key` is stable; it is modelled by `List.insertionSort` on the
position key. -/
def distribute_race_rewards (caller : Principal) (race_id : Nat) (s : State) :
    Except String Unit × State :=
  match alookup s.races race_id with
  | none => (Except.error "Race not found", s)
  | some race =>
    if race.status ≠ RaceStatus.Completed then
      (Except.error "Race is not completed", s)
    else
      let total_prize := race.total_prize_pool
      let sorted := List.insertionSort
        (fun a b => a.current_position ≤ b.current_position) race.participants
      distributeLoop caller total_prize sorted reward_percentages s

/-- The outcome of `end_race`: an `Err` reply, or a trap that rolls the whole
message back (a Rust panic inside an Internet Computer update call). -/
inductive EndRaceOutcome where
  | err (msg : String)
  | trap
deriving DecidableEq, Repr

/-- `fn end_race(race_id) -> Result<(), String>`. After the admin, lookup,
InProgress and winner checks pass, the source calls `distribute_race_rewards`
while the `RefMut` guard from `RACES.with(|races| races.borrow_mut())` is
still alive; `distribute_race_rewards` immediately re-borrows the same
thread-local `RACES` cell, and `RefCell::borrow_mut` under an active mutable
borrow panics (`BorrowMutError`). The panic traps the message and the
Internet Computer rolls back every write of the call — including the
winner/status/end-time assignments made just before. `end_race` therefore has
no success path: every call either returns an `Err` or traps, and in both
cases the state is unchanged. -/
def end_race (caller : Principal) (now race_id : Nat) (s : State) :
    EndRaceOutcome × State :=
  if ¬ is_admin caller s then
    (EndRaceOutcome.err "Only admins can end races", s)
  else
    match alookup s.races race_id with
    | none => (EndRaceOutcome.err "Race not found", s)
    | some race =>
      if race.status ≠ RaceStatus.InProgress then
        (EndRaceOutcome.err "Race is not in progress", s)
      else
        match race.participants.find? (fun p => p.current_position = 1) with
        | none => (EndRaceOutcome.err "No winner found", s)
        | some _ => (EndRaceOutcome.trap, s)

theorem end_race_state (caller : Principal) (now race_id : Nat) (s : State) :
    (end_race caller now race_id s).2 = s := by
  simp only [end_race]
  split
  · rfl
  · split
    · rfl
    · split
      · rfl
      · split
        · rfl
        · rfl

/-- `fn mint_nft(...) -> Result<u64, String>`. -/
def mint_nft (caller : Principal) (now : Nat) (name description image_url : String)
    (nft_type : NFTType) (rarity : Rarity) (attributes : List (String × String))
    (s : State) : Except String Nat × State :=
  if ¬ is_admin caller s then
    (Except.error "Only admins can mint NFTs", s)
  else
    let nft_id := s.nfts.length + 1
    let new_nft : NFT :=
      { id := nft_id, owner := caller, nft_type := nft_type
        metadata := { name := name, description := description
                      image_url := image_url, attributes := attributes }
        listed_price := none, rarity := rarity, creation_time := now
        transaction_history := [] }
    (Except.ok nft_id, { s with nfts := aset s.nfts nft_id new_nft })

/-- `fn transfer_nft(nft_id, to) -> Result<(), String>`. -/
def transfer_nft (caller : Principal) (now nft_id : Nat) (toP : Principal)
    (s : State) : Except String Unit × State :=
  match alookup s.nfts nft_id with
  | none => (Except.error "NFT not found", s)
  | some nft =>
    if nft.owner ≠ caller then
      (Except.error "Not the owner of this NFT", s)
    else
      let nft1 : NFT :=
        { nft with
            transaction_history := nft.transaction_history ++
              [{ timestamp := now, fromP := caller, toP := toP, price := none }]
            owner := toP }
      (Except.ok (), { s with nfts := aset s.nfts nft_id nft1 })

/-- `fn list_nft(nft_id, price) -> Result<(), String>`. -/
def list_nft (caller : Principal) (nft_id price : Nat) (s : State) :
    Except String Unit × State :=
  match alookup s.nfts nft_id with
  | none => (Except.error "NFT not found", s)
  | some nft =>
    if nft.owner ≠ caller then
      (Except.error "Not the owner of this NFT", s)
    else
      (Except.ok (),
        { s with nfts := aset s.nfts nft_id { nft with listed_price := some price } })

/-- `fn buy_nft(nft_id) -> Result<(), String>`. -/
def buy_nft (caller : Principal) (now nft_id : Nat) (s : State) :
    Except String Unit × State :=
  match alookup s.nfts nft_id with
  | none => (Except.error "NFT not found", s)
  | some nft =>
    match nft.listed_price with
    | none => (Except.error "NFT not listed for sale", s)
    | some price =>
      match icrc1_transfer caller
        { from_subaccount := none
          toAcc := { owner := nft.owner, subaccount := none }
          amount := price, fee := none, memo := none, created_at_time := none } s with
      | (Except.error e, s1) => (Except.error (transferErrorMessage e), s1)
      | (Except.ok _, s1) =>
        let nft1 : NFT :=
          { nft with
              transaction_history := nft.transaction_history ++
                [{ timestamp := now, fromP := nft.owner, toP := caller
                   price := some price }]
              owner := caller, listed_price := none }
        (Except.ok (), { s1 with nfts := aset s1.nfts nft_id nft1 })

/-- `fn add_admin(principal) -> Result<(), String>`. -/
def add_admin (caller p : Principal) (s : State) : Except String Unit × State :=
  if ¬ is_admin caller s then
    (Except.error "Only admins can add new admins", s)
  else
    (Except.ok (), { s with admins := s.admins ++ [p] })

/-- Modelled from the spec: `start_race(race_id) → ok | error` is in the spec's
operation surface ("**start**(race): admin-only; only Upcoming → InProgress")
but absent from the source file, whose consumers `update_race_progress` and
`end_race` both require the `InProgress` status this call establishes. -/
def start_race (caller : Principal) (race_id : Nat) (s : State) :
    Except String Unit × State :=
  if ¬ is_admin caller s then
    (Except.error "Only admins can start races", s)
  else
    match alookup s.races race_id with
    | none => (Except.error "Race not found", s)
    | some race =>
      if race.status ≠ RaceStatus.Upcoming then
        (Except.error "Race is not upcoming", s)
      else
        let race1 : Race := { race with status := RaceStatus.InProgress }
        (Except.ok (), { s with races := aset s.races race_id race1 })

/-- The mutating operation surface of the canister (each constructor carries
the verified caller identity and, where the source reads `time()`, the clock). -/
inductive Op where
  | transferOp (caller : Principal) (args : TransferArgs)
  | mintOp (caller : Principal) (toAcc : Account) (amount : Nat)
  | createCampaignOp (caller : Principal) (now : Nat) (name descr : String)
      (target : Nat) (asset : AssetType) (duration : Nat)
  | investOp (caller : Principal) (now campaign_id amount : Nat)
  | createRaceOp (caller : Principal) (name : String) (arena_id entry_fee : Nat)
  | joinRaceOp (caller : Principal) (race_id kart_id driver_id : Nat)
  | updateProgressOp (caller : Principal) (race_id : Nat)
      (positions lap_times : List (Principal × Nat))
  | startRaceOp (caller : Principal) (race_id : Nat)
  | endRaceOp (caller : Principal) (now race_id : Nat)
  | distributeOp (caller : Principal) (race_id : Nat)
  | mintNftOp (caller : Principal) (now : Nat) (name descr url : String)
      (t : NFTType) (r : Rarity) (attrs : List (String × String))
  | transferNftOp (caller : Principal) (now nft_id : Nat) (toP : Principal)
  | listNftOp (caller : Principal) (nft_id price : Nat)
  | buyNftOp (caller : Principal) (now nft_id : Nat)
  | addAdminOp (caller p : Principal)

/-- The state transition of one external call (the reply is discarded). -/
def step (op : Op) (s : State) : State :=
  match op with
  | Op.transferOp c args => (icrc1_transfer c args s).2
  | Op.mintOp c toAcc amount => (icrc1_mint c toAcc amount s).2
  | Op.createCampaignOp c now name descr target asset duration =>
      (create_tokenization_campaign c now name descr target asset duration s).2
  | Op.investOp c now cid amount => (invest_in_campaign c now cid amount s).2
  | Op.createRaceOp c name arena fee => (create_race c name arena fee s).2
  | Op.joinRaceOp c rid kart driver => (join_race c rid kart driver s).2
  | Op.updateProgressOp c rid pos laps => (update_race_progress c rid pos laps s).2
  | Op.startRaceOp c rid => (start_race c rid s).2
  | Op.endRaceOp c now rid => (end_race c now rid s).2
  | Op.distributeOp c rid => (distribute_race_rewards c rid s).2
  | Op.mintNftOp c now name descr url t r attrs =>
      (mint_nft c now name descr url t r attrs s).2
  | Op.transferNftOp c now nft toP => (transfer_nft c now nft toP s).2
  | Op.listNftOp c nft price => (list_nft c nft price s).2
  | Op.buyNftOp c now nft => (buy_nft c now nft s).2
  | Op.addAdminOp c p => (add_admin c p s).2

/-- Run a sequence of external calls. -/
def run (s : State) (ops : List Op) : State := ops.foldl (fun t op => step op t) s

/-- A state is reachable when some call sequence produces it from the
freshly-deployed state. -/
def Reachable (s : State) : Prop := ∃ d ops, s = run (initState d) ops

set_option maxRecDepth 10000

theorem alookup_aset_self {α β : Type} [DecidableEq α] (l : List (α × β)) (k : α) (v : β) :
    alookup (aset l k v) k = some v := by
  induction l with
  | nil => simp [aset, alookup]
  | cons h t ih =>
    obtain ⟨k1, v1⟩ := h
    by_cases hk : k1 = k
    · subst hk; simp [aset, alookup]
    · simp [aset, alookup, hk, ih]

theorem alookup_aset_ne {α β : Type} [DecidableEq α] (l : List (α × β)) (k k' : α)
    (v : β) (hne : k' ≠ k) : alookup (aset l k v) k' = alookup l k' := by
  induction l with
  | nil =>
    simp only [aset, alookup]
    rw [if_neg fun h => hne h.symm]
  | cons hd t ih =>
    obtain ⟨k1, v1⟩ := hd
    by_cases hk : k1 = k
    · subst hk
      simp only [aset, if_pos rfl, alookup]
      rw [if_neg fun h => hne h.symm, if_neg fun h => hne h.symm]
    · simp only [aset, if_neg hk, alookup]
      by_cases hk' : k1 = k'
      · rw [if_pos hk', if_pos hk']
      · rw [if_neg hk', if_neg hk', ih]

theorem balD_aset_self (bs : List (Account × Nat)) (a : Account) (v : Nat) :
    balD (aset bs a v) a = v := by
  simp [balD, alookupD, alookup_aset_self]

theorem balD_aset_ne (bs : List (Account × Nat)) (a a' : Account) (v : Nat)
    (hne : a' ≠ a) : balD (aset bs a v) a' = balD bs a' := by
  simp [balD, alookupD, alookup_aset_ne _ _ _ _ hne]

/-- C3: for every transfer request, `icrc1_transfer` debits the source account
only if its current balance is at least the requested amount, crediting the
destination by the same amount in the same atomic step; otherwise it fails
with `InsufficientFunds` carrying the source's current balance and leaves all
balances (indeed the whole state) unchanged. -/
theorem c3_transfer_guarded_atomic (caller : Principal) (args : TransferArgs) (s : State) :
    (icrc1_balance_of { owner := caller, subaccount := args.from_subaccount } s < args.amount →
      icrc1_transfer caller args s =
        (Except.error (TransferError.InsufficientFunds
          (icrc1_balance_of { owner := caller, subaccount := args.from_subaccount } s)), s)) ∧
    (args.amount ≤ icrc1_balance_of { owner := caller, subaccount := args.from_subaccount } s →
      (icrc1_transfer caller args s).1 = Except.ok 0 ∧
      (∀ a : Account, a ≠ { owner := caller, subaccount := args.from_subaccount } →
        a ≠ args.toAcc →
        icrc1_balance_of a (icrc1_transfer caller args s).2 = icrc1_balance_of a s) ∧
      ((⟨caller, args.from_subaccount⟩ : Account) ≠ args.toAcc →
        icrc1_balance_of { owner := caller, subaccount := args.from_subaccount }
            (icrc1_transfer caller args s).2 =
          icrc1_balance_of { owner := caller, subaccount := args.from_subaccount } s
            - args.amount) ∧
      ((⟨caller, args.from_subaccount⟩ : Account) ≠ args.toAcc →
        icrc1_balance_of args.toAcc s + args.amount < U64MOD →
        icrc1_balance_of args.toAcc (icrc1_transfer caller args s).2 =
          icrc1_balance_of args.toAcc s + args.amount) ∧
      ((⟨caller, args.from_subaccount⟩ : Account) = args.toAcc →
        icrc1_balance_of args.toAcc s < U64MOD →
        ∀ a : Account,
          icrc1_balance_of a (icrc1_transfer caller args s).2 = icrc1_balance_of a s)) := by
  constructor
  · intro hlt
    simp only [icrc1_transfer, icrc1_balance_of] at *
    rw [if_pos hlt]
  · intro hge
    have hnlt : ¬ balD s.balances { owner := caller, subaccount := args.from_subaccount }
        < args.amount := not_lt.mpr hge
    refine ⟨?_, ?_, ?_, ?_, ?_⟩
    · simp only [icrc1_transfer, icrc1_balance_of]
      rw [if_neg hnlt]
    · intro a ha1 ha2
      simp only [icrc1_transfer, icrc1_balance_of]
      rw [if_neg hnlt]
      simp only [balD_aset_ne _ _ _ _ ha2, balD_aset_ne _ _ _ _ ha1]
    · intro hne
      simp only [icrc1_transfer, icrc1_balance_of]
      rw [if_neg hnlt]
      simp only [balD_aset_ne _ _ _ _ hne, balD_aset_self]
    · intro hne hlt
      simp only [icrc1_transfer, icrc1_balance_of] at *
      rw [if_neg hnlt]
      simp only [balD_aset_self, balD_aset_ne _ _ _ _ (Ne.symm hne), wrapAdd]
      exact Nat.mod_eq_of_lt hlt
    · intro heq hlt a
      simp only [icrc1_transfer, icrc1_balance_of] at hlt hge hnlt ⊢
      rw [if_neg hnlt]
      rw [← heq] at hlt ⊢
      by_cases ha : a = ({ owner := caller, subaccount := args.from_subaccount } : Account)
      · subst ha
        simp only [balD_aset_self, wrapAdd]
        rw [Nat.sub_add_cancel hge]
        exact Nat.mod_eq_of_lt hlt
      · simp only [balD_aset_ne _ _ _ _ ha]

/-- Witness for C3 at a concrete state: account `⟨1, none⟩` holds 5 tokens; a
transfer of 3 to `⟨2, none⟩` succeeds and moves exactly 3; a transfer of 9
fails with `InsufficientFunds 5` and changes nothing. -/
theorem c3_transfer_guarded_atomic_witness :
    (icrc1_transfer 1
      { from_subaccount := none, toAcc := { owner := 2, subaccount := none }
        amount := 9, fee := none, memo := none, created_at_time := none }
      { emptyState with balances := [({ owner := 1, subaccount := none }, 5)] } =
      (Except.error (TransferError.InsufficientFunds 5),
        { emptyState with balances := [({ owner := 1, subaccount := none }, 5)] })) ∧
    (icrc1_balance_of { owner := 2, subaccount := none }
      (icrc1_transfer 1
        { from_subaccount := none, toAcc := { owner := 2, subaccount := none }
          amount := 3, fee := none, memo := none, created_at_time := none }
        { emptyState with balances := [({ owner := 1, subaccount := none }, 5)] }).2 = 3) ∧
    (icrc1_balance_of { owner := 1, subaccount := none }
      (icrc1_transfer 1
        { from_subaccount := none, toAcc := { owner := 2, subaccount := none }
          amount := 3, fee := none, memo := none, created_at_time := none }
        { emptyState with balances := [({ owner := 1, subaccount := none }, 5)] }).2 = 2) := by
  refine ⟨?_, ?_, ?_⟩
  · have h := (c3_transfer_guarded_atomic 1
      { from_subaccount := none, toAcc := { owner := 2, subaccount := none }
        amount := 9, fee := none, memo := none, created_at_time := none }
      { emptyState with balances := [({ owner := 1, subaccount := none }, 5)] }).1
    exact h (by decide)
  · have h := ((c3_transfer_guarded_atomic 1
      { from_subaccount := none, toAcc := { owner := 2, subaccount := none }
        amount := 3, fee := none, memo := none, created_at_time := none }
      { emptyState with balances := [({ owner := 1, subaccount := none }, 5)] }).2
        (by decide)).2.2.2.1
    rw [h (by decide) (by decide)]
    decide
  · have h := ((c3_transfer_guarded_atomic 1
      { from_subaccount := none, toAcc := { owner := 2, subaccount := none }
        amount := 3, fee := none, memo := none, created_at_time := none }
      { emptyState with balances := [({ owner := 1, subaccount := none }, 5)] }).2
        (by decide)).2.2.1
    rw [h (by decide)]
    decide

/-- The account of a principal with no subaccount (the only account shape the
canister itself ever constructs). -/
def mkAccount (p : Principal) : Account := { owner := p, subaccount := none }

/-- A campaign with its status replaced. -/
def setCampaignStatus (c : TokenizationCampaign) (st : CampaignStatus) : TokenizationCampaign :=
  { c with status := st }

/-- A race with its status replaced. -/
def setRaceStatus (r : Race) (st : RaceStatus) : Race :=
  { r with status := st }

/-- C7: invoking `invest_in_campaign` on a still-Active campaign after its
`end_time` flips the campaign's status to `Failed` and fails with the
"Campaign has ended" error; nothing else changes — in particular no funds move
and no contribution is recorded for the investor. -/
theorem c7_invest_after_end_time_fails_campaign (caller : Principal)
    (now campaign_id amount : Nat) (s : State) (campaign : TokenizationCampaign)
    (hfound : alookup s.campaigns campaign_id = some campaign)
    (hactive : campaign.status = CampaignStatus.Active)
    (hlate : campaign.end_time < now) :
    invest_in_campaign caller now campaign_id amount s =
      (Except.error "Campaign has ended",
        { s with campaigns := aset s.campaigns campaign_id (setCampaignStatus campaign CampaignStatus.Failed) }) := by
  simp only [invest_in_campaign, hfound]
  rw [hactive]
  simp only [ne_eq, not_true_eq_false, if_false, reduceIte, hlate, if_pos]
  simp [setCampaignStatus]

/-- Witness for C7: a campaign with `end_time = 10`, invoked at `now = 11`,
fails with "Campaign has ended" and is marked `Failed`; its recorded
contributions and all balances are untouched. -/
theorem c7_invest_after_end_time_fails_campaign_witness :
    (invest_in_campaign 5 11 1 42
        { emptyState with
            balances := [(mkAccount 5, 100)]
            campaigns := [(1,
              { id := 1, name := "c", description := "d", target_amount := 1000
                current_amount := 0, asset_type := AssetType.Arena
                status := CampaignStatus.Active, investors := [], end_time := 10 })] } =
      (Except.error "Campaign has ended",
        { emptyState with
            balances := [(mkAccount 5, 100)]
            campaigns := [(1,
              { id := 1, name := "c", description := "d", target_amount := 1000
                current_amount := 0, asset_type := AssetType.Arena
                status := CampaignStatus.Failed, investors := [], end_time := 10 })] })) := by
  have h := c7_invest_after_end_time_fails_campaign 5 11 1 42
    { emptyState with
        balances := [(mkAccount 5, 100)]
        campaigns := [(1,
          { id := 1, name := "c", description := "d", target_amount := 1000
            current_amount := 0, asset_type := AssetType.Arena
            status := CampaignStatus.Active, investors := [], end_time := 10 })] }
    { id := 1, name := "c", description := "d", target_amount := 1000
      current_amount := 0, asset_type := AssetType.Arena
      status := CampaignStatus.Active, investors := [], end_time := 10 }
    (by decide) (by decide) (by decide)
  exact h.trans (by rfl)

/-- C5 (the `start_race` operation itself is modelled from the spec, as the
source file does not define it): `start_race` is admin-only and performs
exactly the transition Upcoming → InProgress; an admin caller on an Upcoming
race succeeds and only the status changes; a non-admin caller, an unknown
race, or a race in any other state fails and leaves the state unchanged. -/
theorem c5_start_race_upcoming_to_in_progress (caller : Principal) (race_id : Nat)
    (s : State) :
    (∀ race : Race, alookup s.races race_id = some race →
      is_admin caller s = true → race.status = RaceStatus.Upcoming →
      start_race caller race_id s =
        (Except.ok (), { s with races := aset s.races race_id (setRaceStatus race RaceStatus.InProgress) })) ∧
    (is_admin caller s = false →
      start_race caller race_id s = (Except.error "Only admins can start races", s)) ∧
    (∀ race : Race, alookup s.races race_id = some race →
      race.status ≠ RaceStatus.Upcoming →
      (∃ e, (start_race caller race_id s).1 = Except.error e) ∧
        (start_race caller race_id s).2 = s) ∧
    (alookup s.races race_id = none →
      (∃ e, (start_race caller race_id s).1 = Except.error e) ∧
        (start_race caller race_id s).2 = s) := by
  refine ⟨?_, ?_, ?_, ?_⟩
  · intro race hfound hadmin hupc
    simp only [start_race, hadmin, hfound, hupc]
    simp [setRaceStatus]
  · intro hnon
    simp only [start_race, hnon]
    simp
  · intro race hfound hst
    simp only [start_race, hfound]
    by_cases hadmin : is_admin caller s
    · simp only [hadmin, ne_eq, hst, not_false_eq_true, if_true]
      exact ⟨⟨"Race is not upcoming", by simp⟩, by simp⟩
    · simp only [hadmin]
      exact ⟨⟨"Only admins can start races", by simp⟩, by simp⟩
  · intro hnone
    simp only [start_race, hnone]
    by_cases hadmin : is_admin caller s
    · simp only [hadmin]
      exact ⟨⟨"Race not found", by simp⟩, by simp⟩
    · simp only [hadmin]
      exact ⟨⟨"Only admins can start races", by simp⟩, by simp⟩

/-- The Upcoming race used in the C5 witness. -/
def c5Race : Race :=
  { id := 1, name := "r", arena_id := 1, participants := []
    status := RaceStatus.Upcoming, winner := none, bets := []
    start_time := none, end_time := none, entry_fee := 10, total_prize_pool := 0 }

/-- Witness for C5: admin 1 starts an Upcoming race and it becomes InProgress;
non-admin 2 is rejected with the state unchanged. -/
theorem c5_start_race_upcoming_to_in_progress_witness :
    (start_race 1 1 { emptyState with admins := [1], races := [(1, c5Race)] } =
      (Except.ok (), { emptyState with admins := [1], races := [(1, setRaceStatus c5Race RaceStatus.InProgress)] })) ∧
    (start_race 2 1 { emptyState with admins := [1], races := [(1, c5Race)] } =
      (Except.error "Only admins can start races",
        { emptyState with admins := [1], races := [(1, c5Race)] })) := by
  constructor
  · have h := (c5_start_race_upcoming_to_in_progress 1 1
      { emptyState with admins := [1], races := [(1, c5Race)] }).1 c5Race
      (by decide) (by decide) (by decide)
    exact h.trans (by rfl)
  · exact (c5_start_race_upcoming_to_in_progress 2 1
      { emptyState with admins := [1], races := [(1, c5Race)] }).2.1 (by decide)

/-- A joined participant currently at a given position (concrete scenarios). -/
def mkParticipant (p : Principal) (pos : Nat) : RaceParticipant :=
  { player := p, kart_id := 0, driver_id := 0, current_position := pos, lap_times := [] }

/-- The race of the C4 scenario: entry fee 10, exactly three joined
participants (players 2, 3, 4) at current positions 1, 2, 3, prize pool
`3 * 10 = 30`, in progress. -/
def c4Race : Race :=
  { id := 1, name := "scenario", arena_id := 1
    participants := [mkParticipant 2 1, mkParticipant 3 2, mkParticipant 4 3]
    status := RaceStatus.InProgress, winner := none, bets := []
    start_time := none, end_time := none, entry_fee := 10, total_prize_pool := 30 }

/-- The C4 scenario state: admin 1 (whose account funds the payouts, holding
exactly the 30 escrowed tokens) and the scenario race. -/
def c4State : State :=
  { emptyState with admins := [1], balances := [(mkAccount 1, 30)], races := [(1, c4Race)] }

/-- C4 (bug exhibit): at the scenario input (entry fee 10, three joined
participants at positions 1, 2, 3, prize pool 30, admin 1 holding the 30
escrowed tokens) `end_race` does not pay 15/9/6: it deterministically traps —
the nested `RACES` `borrow_mut` inside `distribute_race_rewards` panics while
`end_race` still holds its own `RACES` guard — and the trap rolls everything
back, so every balance is unchanged and the race stays InProgress. The
distribution arithmetic itself would compute exactly 15/9/6
(`(30 as f64 * 0.5 / 0.3 / 0.2) as u64`), matching the claim's numbers, but
the payout is unreachable through `end_race`. -/
theorem c4_end_race_traps_no_payout :
    (end_race 1 999 1 c4State = (EndRaceOutcome.trap, c4State)) ∧
    icrc1_balance_of (mkAccount 2) (end_race 1 999 1 c4State).2 = 0 ∧
    icrc1_balance_of (mkAccount 3) (end_race 1 999 1 c4State).2 = 0 ∧
    icrc1_balance_of (mkAccount 4) (end_race 1 999 1 c4State).2 = 0 ∧
    icrc1_balance_of (mkAccount 1) (end_race 1 999 1 c4State).2 = 30 ∧
    (alookup (end_race 1 999 1 c4State).2.races 1).map Race.status =
      some RaceStatus.InProgress ∧
    rewardAmount 30 (roundF64 1 2) = 15 ∧
    rewardAmount 30 (roundF64 3 10) = 9 ∧
    rewardAmount 30 (roundF64 1 5) = 6 := by
  refine ⟨by decide, by decide, by decide, by decide, by decide, by decide,
    by decide, by decide, by decide⟩

/-- The race used to exhibit the broken settlement of C1: in progress, prize
pool 30, three participants at positions 1, 2, 3. -/
def c1Race : Race :=
  { id := 1, name := "r", arena_id := 1
    participants := [mkParticipant 2 1, mkParticipant 3 2, mkParticipant 4 3]
    status := RaceStatus.InProgress, winner := none, bets := []
    start_time := none, end_time := none, entry_fee := 10, total_prize_pool := 30 }

/-- The C1 start state: admin 1 holds 100 tokens and ends race 1. -/
def c1State : State :=
  { emptyState with admins := [1], balances := [(mkAccount 1, 100)], races := [(1, c1Race)] }

theorem setPosition_players (ps : List RaceParticipant) (pl : Principal) (v : Nat) :
    (setPosition ps pl v).map RaceParticipant.player = ps.map RaceParticipant.player := by
  induction ps with
  | nil => rfl
  | cons p rest ih =>
    by_cases h : p.player = pl
    · simp [setPosition, h]
    · simp [setPosition, h, ih]

theorem pushLapTime_players (ps : List RaceParticipant) (pl : Principal) (t : Nat) :
    (pushLapTime ps pl t).map RaceParticipant.player = ps.map RaceParticipant.player := by
  induction ps with
  | nil => rfl
  | cons p rest ih =>
    by_cases h : p.player = pl
    · simp [pushLapTime, h]
    · simp [pushLapTime, h, ih]

theorem setPosition_of_not_mem (ps : List RaceParticipant) (pl : Principal) (v : Nat)
    (h : pl ∉ ps.map RaceParticipant.player) : setPosition ps pl v = ps := by
  induction ps with
  | nil => rfl
  | cons p rest ih =>
    simp only [List.map_cons, List.mem_cons, not_or] at h
    simp only [setPosition]
    rw [if_neg fun he => h.1 he.symm, ih h.2]

theorem pushLapTime_of_not_mem (ps : List RaceParticipant) (pl : Principal) (t : Nat)
    (h : pl ∉ ps.map RaceParticipant.player) : pushLapTime ps pl t = ps := by
  induction ps with
  | nil => rfl
  | cons p rest ih =>
    simp only [List.map_cons, List.mem_cons, not_or] at h
    simp only [pushLapTime]
    rw [if_neg fun he => h.1 he.symm, ih h.2]

theorem foldl_setPosition_filter (us : List (Principal × Nat)) :
    ∀ ps : List RaceParticipant,
      us.foldl (fun acc u => setPosition acc u.1 u.2) ps =
        (us.filter (fun u => u.1 ∈ ps.map RaceParticipant.player)).foldl
          (fun acc u => setPosition acc u.1 u.2) ps := by
  induction us with
  | nil => intro ps; rfl
  | cons u rest ih =>
    intro ps
    by_cases h : u.1 ∈ ps.map RaceParticipant.player
    · rw [List.filter_cons_of_pos (by simpa using h)]
      simp only [List.foldl_cons]
      rw [ih (setPosition ps u.1 u.2)]
      rw [setPosition_players]
    · rw [List.filter_cons_of_neg (by simpa using h)]
      simp only [List.foldl_cons]
      rw [setPosition_of_not_mem ps u.1 u.2 h]
      exact ih ps

theorem foldl_pushLapTime_filter (us : List (Principal × Nat)) :
    ∀ ps : List RaceParticipant,
      us.foldl (fun acc u => pushLapTime acc u.1 u.2) ps =
        (us.filter (fun u => u.1 ∈ ps.map RaceParticipant.player)).foldl
          (fun acc u => pushLapTime acc u.1 u.2) ps := by
  induction us with
  | nil => intro ps; rfl
  | cons u rest ih =>
    intro ps
    by_cases h : u.1 ∈ ps.map RaceParticipant.player
    · rw [List.filter_cons_of_pos (by simpa using h)]
      simp only [List.foldl_cons]
      rw [ih (pushLapTime ps u.1 u.2)]
      rw [pushLapTime_players]
    · rw [List.filter_cons_of_neg (by simpa using h)]
      simp only [List.foldl_cons]
      rw [pushLapTime_of_not_mem ps u.1 u.2 h]
      exact ih ps

theorem foldl_setPosition_players (us : List (Principal × Nat)) :
    ∀ ps : List RaceParticipant,
      (us.foldl (fun acc u => setPosition acc u.1 u.2) ps).map RaceParticipant.player =
        ps.map RaceParticipant.player := by
  induction us with
  | nil => intro ps; rfl
  | cons u rest ih =>
    intro ps
    simp only [List.foldl_cons]
    rw [ih (setPosition ps u.1 u.2), setPosition_players]

theorem foldl_pushLapTime_players (us : List (Principal × Nat)) :
    ∀ ps : List RaceParticipant,
      (us.foldl (fun acc u => pushLapTime acc u.1 u.2) ps).map RaceParticipant.player =
        ps.map RaceParticipant.player := by
  induction us with
  | nil => intro ps; rfl
  | cons u rest ih =>
    intro ps
    simp only [List.foldl_cons]
    rw [ih (pushLapTime ps u.1 u.2), pushLapTime_players]

/-- C8: `update_race_progress`, called by an admin on an InProgress race,
succeeds; entries of either update list whose player is not an enrolled
participant are silently ignored — the result is identical to the call
with those entries filtered out — and the set of enrolled participants
(by player) is unchanged, so no record is created or changed for unknowns. -/
theorem c8_update_progress_ignores_unknown (caller : Principal) (race_id : Nat)
    (positions laps : List (Principal × Nat)) (s : State) (race : Race)
    (hfound : alookup s.races race_id = some race)
    (hadmin : is_admin caller s = true)
    (hprog : race.status = RaceStatus.InProgress) :
    ((update_race_progress caller race_id positions laps s).1 = Except.ok ()) ∧
    (update_race_progress caller race_id positions laps s =
      update_race_progress caller race_id
        (positions.filter (fun u => u.1 ∈ race.participants.map RaceParticipant.player))
        (laps.filter (fun u => u.1 ∈ race.participants.map RaceParticipant.player)) s) ∧
    (∀ race1 : Race,
      alookup (update_race_progress caller race_id positions laps s).2.races race_id =
        some race1 →
      race1.participants.map RaceParticipant.player =
        race.participants.map RaceParticipant.player) := by
  have hnprog : ¬ race.status ≠ RaceStatus.InProgress := by simp [hprog]
  refine ⟨?_, ?_, ?_⟩
  · simp only [update_race_progress, hadmin, hfound, hprog]
    simp
  · have key :
        laps.foldl (fun acc u => pushLapTime acc u.1 u.2)
            (positions.foldl (fun acc u => setPosition acc u.1 u.2) race.participants) =
          (laps.filter
              (fun u => u.1 ∈ race.participants.map RaceParticipant.player)).foldl
            (fun acc u => pushLapTime acc u.1 u.2)
            ((positions.filter
                (fun u => u.1 ∈ race.participants.map RaceParticipant.player)).foldl
              (fun acc u => setPosition acc u.1 u.2) race.participants) := by
      rw [foldl_pushLapTime_filter laps
        (positions.foldl (fun acc u => setPosition acc u.1 u.2) race.participants)]
      rw [foldl_setPosition_players positions race.participants]
      rw [foldl_setPosition_filter positions race.participants]
    simp only [update_race_progress, hadmin, hfound, hprog]
    simp only [ne_eq, not_true_eq_false, if_false, reduceIte]
    rw [key]
  · intro race1 hr1
    simp only [update_race_progress, hadmin, hfound, hprog] at hr1
    simp only [ne_eq, not_true_eq_false, if_false, reduceIte] at hr1
    rw [alookup_aset_self] at hr1
    cases hr1
    simp only []
    rw [foldl_pushLapTime_players, foldl_setPosition_players]

/-- The InProgress race of the C8 witness: one enrolled participant, player 2. -/
def c8Race : Race :=
  { id := 1, name := "r", arena_id := 1, participants := [mkParticipant 2 0]
    status := RaceStatus.InProgress, winner := none, bets := []
    start_time := none, end_time := none, entry_fee := 10, total_prize_pool := 10 }

/-- The C8 witness state: admin 1 and race 1 in progress. -/
def c8State : State := { emptyState with admins := [1], races := [(1, c8Race)] }

/-- Witness for C8: updates naming the unknown player 9 are silently dropped —
the call succeeds, equals the call with those entries removed, and the only
enrolled player afterwards is still player 2. -/
theorem c8_update_progress_ignores_unknown_witness :
    ((update_race_progress 1 1 [(2, 1), (9, 5)] [(9, 77)] c8State).1 = Except.ok ()) ∧
    (update_race_progress 1 1 [(2, 1), (9, 5)] [(9, 77)] c8State =
      update_race_progress 1 1 [(2, 1)] [] c8State) ∧
    (∀ race1 : Race,
      alookup (update_race_progress 1 1 [(2, 1), (9, 5)] [(9, 77)] c8State).2.races 1 =
        some race1 →
      race1.participants.map RaceParticipant.player = [2]) := by
  have h := c8_update_progress_ignores_unknown 1 1 [(2, 1), (9, 5)] [(9, 77)] c8State
    c8Race (by decide) (by decide) (by decide)
  exact ⟨h.1, h.2.1.trans (by rfl), fun r hr => (h.2.2 r hr).trans (by decide)⟩

theorem icrc1_transfer_frame (caller : Principal) (args : TransferArgs) (s : State)
    (a : Account) (ha1 : a ≠ { owner := caller, subaccount := args.from_subaccount })
    (ha2 : a ≠ args.toAcc) :
    balD (icrc1_transfer caller args s).2.balances a = balD s.balances a := by
  simp only [icrc1_transfer]
  split
  · rfl
  · simp only [balD_aset_ne _ _ _ _ ha2, balD_aset_ne _ _ _ _ ha1]

theorem icrc1_transfer_decrease_classify (caller : Principal) (args : TransferArgs)
    (s : State) (a : Account)
    (hlt : balD (icrc1_transfer caller args s).2.balances a < balD s.balances a) :
    a = { owner := caller, subaccount := args.from_subaccount } ∨
      (a = args.toAcc ∧ U64MOD ≤ balD s.balances a + args.amount) := by
  by_cases h1 : a = ({ owner := caller, subaccount := args.from_subaccount } : Account)
  · exact Or.inl h1
  · right
    by_cases h2 : a = args.toAcc
    · refine ⟨h2, ?_⟩
      by_contra hno
      push_neg at hno
      simp only [icrc1_transfer] at hlt
      split at hlt
      · exact absurd hlt (lt_irrefl _)
      · subst h2
        rw [balD_aset_self, balD_aset_ne _ _ _ _ h1, wrapAdd,
          Nat.mod_eq_of_lt hno] at hlt
        omega
    · rw [icrc1_transfer_frame caller args s a h1 h2] at hlt
      exact absurd hlt (lt_irrefl _)

theorem distributeLoop_frame (caller : Principal) (total_prize : Nat)
    (sorted : List RaceParticipant) (entries : List (Nat × F64)) (s : State)
    (a : Account) (ha1 : a ≠ mkAccount caller)
    (ha2 : ∀ p ∈ sorted, a ≠ mkAccount p.player) :
    balD (distributeLoop caller total_prize sorted entries s).2.balances a =
      balD s.balances a := by
  induction entries generalizing s with
  | nil => rfl
  | cons e rest ih =>
    obtain ⟨position, percentage⟩ := e
    rcases hfind : sorted.find? (fun p => p.current_position = position) with _ | participant
    · simp only [distributeLoop, hfind]
      exact ih s
    · have hmem := List.mem_of_find?_eq_some hfind
      have hne : a ≠ mkAccount participant.player := ha2 participant hmem
      have hfr := icrc1_transfer_frame caller
        { from_subaccount := none
          toAcc := { owner := participant.player, subaccount := none }
          amount := rewardAmount total_prize percentage
          fee := none, memo := none, created_at_time := none } s a ha1 hne
      rcases h : icrc1_transfer caller
        { from_subaccount := none
          toAcc := { owner := participant.player, subaccount := none }
          amount := rewardAmount total_prize percentage
          fee := none, memo := none, created_at_time := none } s with ⟨res, s1⟩
      rw [h] at hfr
      simp only [distributeLoop, hfind, h]
      cases res with
      | error e2 => simpa using hfr
      | ok v => exact (ih s1).trans (by simpa using hfr)

theorem distribute_race_rewards_frame (caller : Principal) (rid : Nat) (s : State)
    (race : Race) (a : Account) (hfound : alookup s.races rid = some race)
    (ha1 : a ≠ mkAccount caller)
    (ha2 : ∀ p ∈ race.participants, a ≠ mkAccount p.player) :
    balD (distribute_race_rewards caller rid s).2.balances a = balD s.balances a := by
  simp only [distribute_race_rewards, hfound]
  split
  · rfl
  · refine distributeLoop_frame caller race.total_prize_pool _ reward_percentages s a ha1 ?_
    intro p hp
    exact ha2 p ((List.perm_insertionSort _ _).mem_iff.1 hp)

/-- C10 (amended): every payout transfer of reward distribution is debited
from the account of the invoking principal — `icrc1_transfer` always uses the
current caller as the source, so a balance can only decrease at the caller's
source account (or, degenerately, by u64 wrap of a credit at the
destination) — hence a direct `distribute_race_rewards` call leaves every
account other than the caller's and the payout recipients', in particular the
canister holding account that received the entry fees, unchanged. `end_race`,
however, performs no payouts at all: it traps on the nested `RACES` borrow
before any transfer, so ending a race changes no balance whatsoever — in
particular nothing comes out of the admin's (or any) balance through it. -/
theorem c10_payouts_debit_caller (caller : Principal) (now rid : Nat) (s : State)
    (race : Race) (hfound : alookup s.races rid = some race) :
    (∀ args : TransferArgs, ∀ a : Account,
      balD (icrc1_transfer caller args s).2.balances a < balD s.balances a →
      a = { owner := caller, subaccount := args.from_subaccount } ∨
        (a = args.toAcc ∧ U64MOD ≤ balD s.balances a + args.amount)) ∧
    (∀ a : Account, a ≠ mkAccount caller →
      (∀ p ∈ race.participants, a ≠ mkAccount p.player) →
      balD (distribute_race_rewards caller rid s).2.balances a = balD s.balances a) ∧
    (caller ≠ canister_id →
      (∀ p ∈ race.participants, p.player ≠ canister_id) →
      balD (distribute_race_rewards caller rid s).2.balances (mkAccount canister_id) =
        balD s.balances (mkAccount canister_id)) ∧
    (∀ c2 : Principal, ∀ now2 rid2 : Nat, ∀ s2 : State, ∀ a : Account,
      balD (end_race c2 now2 rid2 s2).2.balances a = balD s2.balances a) := by
  refine ⟨?_, ?_, ?_, ?_⟩
  · intro args a hlt
    exact icrc1_transfer_decrease_classify caller args s a hlt
  · intro a ha1 ha2
    exact distribute_race_rewards_frame caller rid s race a hfound ha1 ha2
  · intro hc hp
    refine distribute_race_rewards_frame caller rid s race (mkAccount canister_id) hfound
      ?_ ?_
    · intro h
      exact hc (congrArg Account.owner h).symm
    · intro p hp2 h
      exact hp p hp2 (congrArg Account.owner h).symm
  · intro c2 now2 rid2 s2 a
    rw [end_race_state]

/-- Counterexample for C10 as frozen: ending race 1 (InProgress, pool 30,
position-1 winner present) by the funded admin 1 performs no payout at all —
the call traps with the state rolled back, the admin still holds 100 and the
would-be winner still holds 0 — so the payouts of an `end_race` do not (and
cannot) come out of the admin's balance: they never happen. -/
theorem c10_end_race_no_payout_cex :
    (end_race 1 999 1 c1State = (EndRaceOutcome.trap, c1State)) ∧
    icrc1_balance_of (mkAccount 1) (end_race 1 999 1 c1State).2 = 100 ∧
    icrc1_balance_of (mkAccount 2) (end_race 1 999 1 c1State).2 = 0 := by
  refine ⟨by decide, by decide, by decide⟩

/-- The already-Completed race used in the C10 witness: pool 30, participants
2, 3, 4 at positions 1, 2, 3. -/
def c10Race : Race :=
  { id := 1, name := "r", arena_id := 1
    participants := [mkParticipant 2 1, mkParticipant 3 2, mkParticipant 4 3]
    status := RaceStatus.Completed, winner := some 2, bets := []
    start_time := none, end_time := some 5, entry_fee := 10, total_prize_pool := 30 }

/-- The C10 witness state: the canister holding account `⟨0, none⟩` keeps the
55 escrowed tokens; caller 1 holds 100. -/
def c10State : State :=
  { emptyState with
      admins := [1]
      balances := [(mkAccount canister_id, 55), (mkAccount 1, 100)]
      races := [(1, c10Race)] }

/-- Witness for C10: distributing the rewards of the completed race from
caller 1 leaves the holding account's 55 tokens untouched (the payouts are
debited from the caller instead). -/
theorem c10_payouts_debit_caller_witness :
    balD (distribute_race_rewards 1 1 c10State).2.balances (mkAccount canister_id) = 55 ∧
    balD (distribute_race_rewards 1 1 c10State).2.balances (mkAccount 1) = 70 := by
  constructor
  · have h := (c10_payouts_debit_caller 1 999 1 c10State c10Race (by decide)).2.2.1
      (by decide) (by decide)
    rw [h]
    decide
  · decide

theorem alookup_mem {α β : Type} [DecidableEq α] (l : List (α × β)) (k : α) (v : β)
    (h : alookup l k = some v) : (k, v) ∈ l := by
  induction l with
  | nil => exact absurd h (by simp [alookup])
  | cons hd t ih =>
    obtain ⟨k1, v1⟩ := hd
    simp only [alookup] at h
    by_cases hk : k1 = k
    · rw [if_pos hk] at h
      cases h
      subst hk
      exact List.mem_cons_self _ _
    · rw [if_neg hk] at h
      exact List.mem_cons_of_mem _ (ih h)

theorem mem_aset {α β : Type} [DecidableEq α] (l : List (α × β)) (k : α) (v : β)
    (x : α × β) (h : x ∈ aset l k v) : x = (k, v) ∨ x ∈ l := by
  induction l with
  | nil => simpa [aset] using h
  | cons hd t ih =>
    obtain ⟨k1, v1⟩ := hd
    simp only [aset] at h
    by_cases hk : k1 = k
    · rw [if_pos hk] at h
      rcases List.mem_cons.1 h with h1 | h1
      · exact Or.inl h1
      · exact Or.inr (List.mem_cons_of_mem _ h1)
    · rw [if_neg hk] at h
      rcases List.mem_cons.1 h with h1 | h1
      · exact Or.inr (h1 ▸ List.mem_cons_self _ _)
      · rcases ih h1 with h2 | h2
        · exact Or.inl h2
        · exact Or.inr (List.mem_cons_of_mem _ h2)

theorem length_aset_of_none {α β : Type} [DecidableEq α] (l : List (α × β)) (k : α)
    (v : β) (h : alookup l k = none) : (aset l k v).length = l.length + 1 := by
  induction l with
  | nil => rfl
  | cons hd t ih =>
    obtain ⟨k1, v1⟩ := hd
    simp only [alookup] at h
    by_cases hk : k1 = k
    · rw [if_pos hk] at h
      cases h
    · rw [if_neg hk] at h
      simp only [aset, if_neg hk, List.length_cons, ih h]

theorem length_aset_of_some {α β : Type} [DecidableEq α] (l : List (α × β)) (k : α)
    (v w : β) (h : alookup l k = some w) : (aset l k v).length = l.length := by
  induction l with
  | nil => exact absurd h (by simp [alookup])
  | cons hd t ih =>
    obtain ⟨k1, v1⟩ := hd
    simp only [alookup] at h
    by_cases hk : k1 = k
    · simp only [aset, if_pos hk, List.length_cons]
    · rw [if_neg hk] at h
      simp only [aset, if_neg hk, List.length_cons, ih h]

/-- The per-race bookkeeping invariant: the prize pool is the entry fee times
the number of enrolled participants, as a wrapping u64 product. -/
def RaceInv (s : State) : Prop :=
  ∀ pr ∈ s.races,
    (pr : Nat × Race).2.total_prize_pool =
      (pr.2.entry_fee * pr.2.participants.length) % U64MOD

/-- The campaign/reward-trigger invariant: the reward-issuance log holds a
campaign id exactly once when that campaign is Completed and not at all
otherwise, and campaign ids never exceed the store's size. -/
def CampInv (s : State) : Prop :=
  (∀ cid : Nat, s.mintedRewards.count cid =
    (match alookup s.campaigns cid with
     | some c => if c.status = CampaignStatus.Completed then 1 else 0
     | none => 0)) ∧
  (∀ cid : Nat, s.campaigns.length < cid → alookup s.campaigns cid = none)

/-- The combined reachability invariant. -/
def StateInv (s : State) : Prop := RaceInv s ∧ CampInv s

theorem inv_of_eq_stores (s s' : State) (hr : s'.races = s.races)
    (hc : s'.campaigns = s.campaigns) (hm : s'.mintedRewards = s.mintedRewards)
    (h : StateInv s) : StateInv s' := by
  unfold StateInv RaceInv CampInv at *
  rw [hr, hc, hm]
  exact h

theorem icrc1_transfer_only_balances (c : Principal) (args : TransferArgs) (s : State) :
    (icrc1_transfer c args s).2.races = s.races ∧
    (icrc1_transfer c args s).2.campaigns = s.campaigns ∧
    (icrc1_transfer c args s).2.mintedRewards = s.mintedRewards ∧
    (icrc1_transfer c args s).2.totalSupply = s.totalSupply ∧
    (icrc1_transfer c args s).2.nfts = s.nfts ∧
    (icrc1_transfer c args s).2.admins = s.admins := by
  simp only [icrc1_transfer]
  split
  · exact ⟨rfl, rfl, rfl, rfl, rfl, rfl⟩
  · exact ⟨rfl, rfl, rfl, rfl, rfl, rfl⟩

theorem distributeLoop_only_balances (c : Principal) (total : Nat)
    (sorted : List RaceParticipant) (entries : List (Nat × F64)) (s : State) :
    (distributeLoop c total sorted entries s).2.races = s.races ∧
    (distributeLoop c total sorted entries s).2.campaigns = s.campaigns ∧
    (distributeLoop c total sorted entries s).2.mintedRewards = s.mintedRewards ∧
    (distributeLoop c total sorted entries s).2.totalSupply = s.totalSupply ∧
    (distributeLoop c total sorted entries s).2.nfts = s.nfts ∧
    (distributeLoop c total sorted entries s).2.admins = s.admins := by
  induction entries generalizing s with
  | nil => exact ⟨rfl, rfl, rfl, rfl, rfl, rfl⟩
  | cons e rest ih =>
    obtain ⟨position, percentage⟩ := e
    rcases hfind : sorted.find? (fun p => p.current_position = position) with _ | w
    · simp only [distributeLoop, hfind]
      exact ih s
    · have htr := icrc1_transfer_only_balances c
        { from_subaccount := none, toAcc := { owner := w.player, subaccount := none }
          amount := rewardAmount total percentage, fee := none, memo := none
          created_at_time := none } s
      rcases h : icrc1_transfer c
        { from_subaccount := none, toAcc := { owner := w.player, subaccount := none }
          amount := rewardAmount total percentage, fee := none, memo := none
          created_at_time := none } s with ⟨res, s1⟩
      rw [h] at htr
      simp only [distributeLoop, hfind, h]
      cases res with
      | error e2 => exact htr
      | ok v =>
        obtain ⟨h1, h2, h3, h4, h5, h6⟩ := ih s1
        obtain ⟨g1, g2, g3, g4, g5, g6⟩ := htr
        exact ⟨h1.trans g1, h2.trans g2, h3.trans g3, h4.trans g4, h5.trans g5,
          h6.trans g6⟩

theorem distribute_race_rewards_only_balances (c : Principal) (rid : Nat) (s : State) :
    (distribute_race_rewards c rid s).2.races = s.races ∧
    (distribute_race_rewards c rid s).2.campaigns = s.campaigns ∧
    (distribute_race_rewards c rid s).2.mintedRewards = s.mintedRewards ∧
    (distribute_race_rewards c rid s).2.totalSupply = s.totalSupply ∧
    (distribute_race_rewards c rid s).2.nfts = s.nfts ∧
    (distribute_race_rewards c rid s).2.admins = s.admins := by
  simp only [distribute_race_rewards]
  split
  · exact ⟨rfl, rfl, rfl, rfl, rfl, rfl⟩
  · next race hfound =>
    split
    · exact ⟨rfl, rfl, rfl, rfl, rfl, rfl⟩
    · exact distributeLoop_only_balances c race.total_prize_pool _ reward_percentages s

theorem icrc1_mint_stores (c : Principal) (toAcc : Account) (amount : Nat) (s : State) :
    (icrc1_mint c toAcc amount s).2.races = s.races ∧
    (icrc1_mint c toAcc amount s).2.campaigns = s.campaigns ∧
    (icrc1_mint c toAcc amount s).2.mintedRewards = s.mintedRewards := by
  simp only [icrc1_mint]
  split
  · exact ⟨rfl, rfl, rfl⟩
  · exact ⟨rfl, rfl, rfl⟩

theorem mint_nft_stores (c : Principal) (now : Nat) (n d u : String) (t : NFTType)
    (r : Rarity) (attrs : List (String × String)) (s : State) :
    (mint_nft c now n d u t r attrs s).2.races = s.races ∧
    (mint_nft c now n d u t r attrs s).2.campaigns = s.campaigns ∧
    (mint_nft c now n d u t r attrs s).2.mintedRewards = s.mintedRewards ∧
    (mint_nft c now n d u t r attrs s).2.totalSupply = s.totalSupply := by
  simp only [mint_nft]
  split
  · exact ⟨rfl, rfl, rfl, rfl⟩
  · exact ⟨rfl, rfl, rfl, rfl⟩

theorem transfer_nft_stores (c : Principal) (now nft_id : Nat) (toP : Principal)
    (s : State) :
    (transfer_nft c now nft_id toP s).2.races = s.races ∧
    (transfer_nft c now nft_id toP s).2.campaigns = s.campaigns ∧
    (transfer_nft c now nft_id toP s).2.mintedRewards = s.mintedRewards ∧
    (transfer_nft c now nft_id toP s).2.totalSupply = s.totalSupply := by
  simp only [transfer_nft]
  split
  · exact ⟨rfl, rfl, rfl, rfl⟩
  · split
    · exact ⟨rfl, rfl, rfl, rfl⟩
    · exact ⟨rfl, rfl, rfl, rfl⟩

theorem list_nft_stores (c : Principal) (nft_id price : Nat) (s : State) :
    (list_nft c nft_id price s).2.races = s.races ∧
    (list_nft c nft_id price s).2.campaigns = s.campaigns ∧
    (list_nft c nft_id price s).2.mintedRewards = s.mintedRewards ∧
    (list_nft c nft_id price s).2.totalSupply = s.totalSupply := by
  simp only [list_nft]
  split
  · exact ⟨rfl, rfl, rfl, rfl⟩
  · split
    · exact ⟨rfl, rfl, rfl, rfl⟩
    · exact ⟨rfl, rfl, rfl, rfl⟩

theorem buy_nft_stores (c : Principal) (now nft_id : Nat) (s : State) :
    (buy_nft c now nft_id s).2.races = s.races ∧
    (buy_nft c now nft_id s).2.campaigns = s.campaigns ∧
    (buy_nft c now nft_id s).2.mintedRewards = s.mintedRewards ∧
    (buy_nft c now nft_id s).2.totalSupply = s.totalSupply := by
  simp only [buy_nft]
  split
  · exact ⟨rfl, rfl, rfl, rfl⟩
  · next nft hfound =>
    split
    · exact ⟨rfl, rfl, rfl, rfl⟩
    · next price hprice =>
      have htr := icrc1_transfer_only_balances c
        { from_subaccount := none, toAcc := { owner := nft.owner, subaccount := none }
          amount := price, fee := none, memo := none, created_at_time := none } s
      rcases h : icrc1_transfer c
        { from_subaccount := none, toAcc := { owner := nft.owner, subaccount := none }
          amount := price, fee := none, memo := none, created_at_time := none } s
        with ⟨e | v, s1⟩ <;> rw [h] at htr <;>
        exact ⟨htr.1, htr.2.1, htr.2.2.1, htr.2.2.2.1⟩

theorem add_admin_stores (c p : Principal) (s : State) :
    (add_admin c p s).2.races = s.races ∧
    (add_admin c p s).2.campaigns = s.campaigns ∧
    (add_admin c p s).2.mintedRewards = s.mintedRewards ∧
    (add_admin c p s).2.totalSupply = s.totalSupply := by
  simp only [add_admin]
  split
  · exact ⟨rfl, rfl, rfl, rfl⟩
  · exact ⟨rfl, rfl, rfl, rfl⟩

theorem create_tokenization_campaign_stores (c : Principal) (now : Nat) (n d : String)
    (target : Nat) (asset : AssetType) (duration : Nat) (s : State) :
    (create_tokenization_campaign c now n d target asset duration s).2.races = s.races ∧
    (create_tokenization_campaign c now n d target asset duration s).2.totalSupply =
      s.totalSupply ∧
    (create_tokenization_campaign c now n d target asset duration s).2.mintedRewards =
      s.mintedRewards := by
  simp only [create_tokenization_campaign]
  split
  · exact ⟨rfl, rfl, rfl⟩
  · exact ⟨rfl, rfl, rfl⟩

theorem invest_in_campaign_stores (c : Principal) (now cid amount : Nat) (s : State) :
    (invest_in_campaign c now cid amount s).2.races = s.races ∧
    (invest_in_campaign c now cid amount s).2.totalSupply = s.totalSupply := by
  simp only [invest_in_campaign]
  split
  · exact ⟨rfl, rfl⟩
  · next campaign hfound =>
    split
    · exact ⟨rfl, rfl⟩
    · split
      · exact ⟨rfl, rfl⟩
      · split
        · next e s1 heq =>
          have htr := icrc1_transfer_only_balances c
            { from_subaccount := none
              toAcc := { owner := canister_id, subaccount := none }
              amount := amount, fee := none, memo := none, created_at_time := none } s
          rw [heq] at htr
          exact ⟨htr.1, htr.2.2.2.1⟩
        · next v s1 heq =>
          have htr := icrc1_transfer_only_balances c
            { from_subaccount := none
              toAcc := { owner := canister_id, subaccount := none }
              amount := amount, fee := none, memo := none, created_at_time := none } s
          rw [heq] at htr
          split
          · split
            · exact ⟨htr.1, htr.2.2.2.1⟩
            · next s4 hmint =>
              simp only [mint_campaign_rewards, Except.ok.injEq] at hmint
              subst hmint
              exact ⟨htr.1, htr.2.2.2.1⟩
          · exact ⟨htr.1, htr.2.2.2.1⟩

theorem create_race_stores (c : Principal) (n : String) (arena fee : Nat) (s : State) :
    (create_race c n arena fee s).2.campaigns = s.campaigns ∧
    (create_race c n arena fee s).2.mintedRewards = s.mintedRewards ∧
    (create_race c n arena fee s).2.totalSupply = s.totalSupply := by
  simp only [create_race]
  split
  · exact ⟨rfl, rfl, rfl⟩
  · split
    · exact ⟨rfl, rfl, rfl⟩
    · split
      · exact ⟨rfl, rfl, rfl⟩
      · exact ⟨rfl, rfl, rfl⟩

theorem join_race_stores (c : Principal) (rid kart driver : Nat) (s : State) :
    (join_race c rid kart driver s).2.campaigns = s.campaigns ∧
    (join_race c rid kart driver s).2.mintedRewards = s.mintedRewards ∧
    (join_race c rid kart driver s).2.totalSupply = s.totalSupply := by
  simp only [join_race]
  split
  · exact ⟨rfl, rfl, rfl⟩
  · split
    · exact ⟨rfl, rfl, rfl⟩
    · split
      · exact ⟨rfl, rfl, rfl⟩
      · next race hfound =>
        split
        · exact ⟨rfl, rfl, rfl⟩
        · split
          · exact ⟨rfl, rfl, rfl⟩
          · have htr := icrc1_transfer_only_balances c
              { from_subaccount := none
                toAcc := { owner := canister_id, subaccount := none }
                amount := race.entry_fee, fee := none, memo := none
                created_at_time := none } s
            rcases h : icrc1_transfer c
              { from_subaccount := none
                toAcc := { owner := canister_id, subaccount := none }
                amount := race.entry_fee, fee := none, memo := none
                created_at_time := none } s with ⟨e | v, s1⟩ <;> rw [h] at htr <;>
              exact ⟨htr.2.1, htr.2.2.1, htr.2.2.2.1⟩

theorem update_race_progress_stores (c : Principal) (rid : Nat)
    (pos laps : List (Principal × Nat)) (s : State) :
    (update_race_progress c rid pos laps s).2.campaigns = s.campaigns ∧
    (update_race_progress c rid pos laps s).2.mintedRewards = s.mintedRewards ∧
    (update_race_progress c rid pos laps s).2.totalSupply = s.totalSupply := by
  simp only [update_race_progress]
  split
  · exact ⟨rfl, rfl, rfl⟩
  · split
    · exact ⟨rfl, rfl, rfl⟩
    · split
      · exact ⟨rfl, rfl, rfl⟩
      · exact ⟨rfl, rfl, rfl⟩

theorem start_race_stores (c : Principal) (rid : Nat) (s : State) :
    (start_race c rid s).2.campaigns = s.campaigns ∧
    (start_race c rid s).2.mintedRewards = s.mintedRewards ∧
    (start_race c rid s).2.totalSupply = s.totalSupply := by
  simp only [start_race]
  split
  · exact ⟨rfl, rfl, rfl⟩
  · split
    · exact ⟨rfl, rfl, rfl⟩
    · split
      · exact ⟨rfl, rfl, rfl⟩
      · exact ⟨rfl, rfl, rfl⟩

theorem end_race_stores (c : Principal) (now rid : Nat) (s : State) :
    (end_race c now rid s).2.campaigns = s.campaigns ∧
    (end_race c now rid s).2.mintedRewards = s.mintedRewards ∧
    (end_race c now rid s).2.totalSupply = s.totalSupply := by
  rw [end_race_state]
  exact ⟨rfl, rfl, rfl⟩

theorem raceInv_aset (races : List (Nat × Race)) (rid : Nat) (r : Race)
    (hall : ∀ pr ∈ races,
      (pr : Nat × Race).2.total_prize_pool =
        (pr.2.entry_fee * pr.2.participants.length) % U64MOD)
    (hr : r.total_prize_pool = (r.entry_fee * r.participants.length) % U64MOD) :
    ∀ pr ∈ aset races rid r,
      (pr : Nat × Race).2.total_prize_pool =
        (pr.2.entry_fee * pr.2.participants.length) % U64MOD := by
  intro pr hpr
  rcases mem_aset _ _ _ _ hpr with h1 | h1
  · subst h1
    exact hr
  · exact hall pr h1

theorem stateInv_create_race (c : Principal) (n : String) (arena fee : Nat) (s : State)
    (h : StateInv s) : StateInv (create_race c n arena fee s).2 := by
  obtain ⟨hR, hC⟩ := h
  constructor
  · simp only [RaceInv, create_race]
    split
    · exact hR
    · split
      · exact hR
      · split
        · exact hR
        · exact raceInv_aset s.races _ _ hR (by simp)
  · obtain ⟨h1, h2, h3⟩ := create_race_stores c n arena fee s
    unfold CampInv at hC ⊢
    rw [h1, h2]
    exact hC

theorem stateInv_start_race (c : Principal) (rid : Nat) (s : State)
    (h : StateInv s) : StateInv (start_race c rid s).2 := by
  obtain ⟨hR, hC⟩ := h
  constructor
  · simp only [RaceInv, start_race]
    split
    · exact hR
    · split
      · exact hR
      · next race hfound =>
        split
        · exact hR
        · exact raceInv_aset s.races rid _ hR
            (by simpa using hR (rid, race) (alookup_mem _ _ _ hfound))
  · obtain ⟨h1, h2, h3⟩ := start_race_stores c rid s
    unfold CampInv at hC ⊢
    rw [h1, h2]
    exact hC

theorem stateInv_update_race_progress (c : Principal) (rid : Nat)
    (pos laps : List (Principal × Nat)) (s : State) (h : StateInv s) :
    StateInv (update_race_progress c rid pos laps s).2 := by
  obtain ⟨hR, hC⟩ := h
  constructor
  · simp only [RaceInv, update_race_progress]
    split
    · exact hR
    · split
      · exact hR
      · next race hfound =>
        split
        · exact hR
        · refine raceInv_aset s.races rid _ hR ?_
          have hlen :
              (laps.foldl (fun acc u => pushLapTime acc u.1 u.2)
                (pos.foldl (fun acc u => setPosition acc u.1 u.2)
                  race.participants)).length = race.participants.length := by
            have h1 := foldl_pushLapTime_players laps
              (pos.foldl (fun acc u => setPosition acc u.1 u.2) race.participants)
            have h2 := foldl_setPosition_players pos race.participants
            have h3 := congrArg List.length (h1.trans h2)
            simpa using h3
          have hr := hR (rid, race) (alookup_mem _ _ _ hfound)
          simpa [hlen] using hr
  · obtain ⟨h1, h2, h3⟩ := update_race_progress_stores c rid pos laps s
    unfold CampInv at hC ⊢
    rw [h1, h2]
    exact hC

theorem stateInv_join_race (c : Principal) (rid kart driver : Nat) (s : State)
    (h : StateInv s) : StateInv (join_race c rid kart driver s).2 := by
  obtain ⟨hR, hC⟩ := h
  constructor
  · simp only [RaceInv, join_race]
    split
    · exact hR
    · split
      · exact hR
      · split
        · exact hR
        · next race hfound =>
          split
          · exact hR
          · split
            · exact hR
            · split
              · next e s1 heq =>
                obtain ⟨htr, -⟩ := icrc1_transfer_only_balances c
                  { from_subaccount := none
                    toAcc := { owner := canister_id, subaccount := none }
                    amount := race.entry_fee, fee := none, memo := none
                    created_at_time := none } s
                rw [heq] at htr
                have hs1 : s1.races = s.races := htr
                intro pr hpr
                have hpr1 : pr ∈ s1.races := hpr
                rw [hs1] at hpr1
                exact hR pr hpr1
              · next v s1 heq =>
                obtain ⟨htr, -⟩ := icrc1_transfer_only_balances c
                  { from_subaccount := none
                    toAcc := { owner := canister_id, subaccount := none }
                    amount := race.entry_fee, fee := none, memo := none
                    created_at_time := none } s
                rw [heq] at htr
                have hs1 : s1.races = s.races := htr
                intro pr hpr
                have hpr1 : pr ∈ aset s1.races rid
                    { race with
                        total_prize_pool := wrapAdd race.total_prize_pool race.entry_fee
                        participants := race.participants ++
                          [{ player := c, kart_id := kart, driver_id := driver
                             current_position := 0, lap_times := [] }] } := hpr
                rw [hs1] at hpr1
                refine raceInv_aset s.races rid _ hR ?_ pr hpr1
                have hr := hR (rid, race) (alookup_mem _ _ _ hfound)
                simp only [wrapAdd] at hr ⊢
                rw [hr]
                simp [Nat.mod_add_mod, Nat.mul_succ]
  · obtain ⟨h1, h2, h3⟩ := join_race_stores c rid kart driver s
    unfold CampInv at hC ⊢
    rw [h1, h2]
    exact hC

theorem stateInv_end_race (c : Principal) (now rid : Nat) (s : State)
    (h : StateInv s) : StateInv (end_race c now rid s).2 := by
  rw [end_race_state]
  exact h

theorem stateInv_create_campaign (c : Principal) (now : Nat) (n d : String)
    (target : Nat) (asset : AssetType) (duration : Nat) (s : State) (h : StateInv s) :
    StateInv (create_tokenization_campaign c now n d target asset duration s).2 := by
  obtain ⟨hR, hC⟩ := h
  obtain ⟨hcount, hbound⟩ := hC
  constructor
  · obtain ⟨h1, h2, h3⟩ := create_tokenization_campaign_stores c now n d target asset
      duration s
    unfold RaceInv at hR ⊢
    rw [h1]
    exact hR
  · simp only [CampInv, create_tokenization_campaign]
    split
    · exact ⟨hcount, hbound⟩
    · have hfresh : alookup s.campaigns (s.campaigns.length + 1) = none :=
        hbound _ (Nat.lt_succ_self _)
      constructor
      · intro cid
        by_cases hcid : cid = s.campaigns.length + 1
        · subst hcid
          rw [alookup_aset_self]
          simp only []
          have h0 := hcount (s.campaigns.length + 1)
          rw [hfresh] at h0
          simpa using h0
        · rw [alookup_aset_ne _ _ _ _ hcid]
          exact hcount cid
      · intro cid hlt
        rw [length_aset_of_none _ _ _ hfresh] at hlt
        have hne : cid ≠ s.campaigns.length + 1 := by omega
        rw [alookup_aset_ne _ _ _ _ hne]
        exact hbound cid (by omega)

theorem stateInv_invest (c : Principal) (now cid amount : Nat) (s : State)
    (h : StateInv s) : StateInv (invest_in_campaign c now cid amount s).2 := by
  obtain ⟨hR, hC⟩ := h
  obtain ⟨hcount, hbound⟩ := hC
  have hraces := (invest_in_campaign_stores c now cid amount s).1
  refine ⟨?_, ?_⟩
  · unfold RaceInv at hR ⊢
    rw [hraces]
    exact hR
  · simp only [CampInv, invest_in_campaign]
    split
    · exact ⟨hcount, hbound⟩
    · next campaign hfound =>
      split
      · exact ⟨hcount, hbound⟩
      · next hactive =>
        have hact : campaign.status = CampaignStatus.Active := by
          by_contra hcon
          exact hactive hcon
        split
        · constructor
          · intro cid2
            by_cases hcid : cid2 = cid
            · subst hcid
              rw [alookup_aset_self]
              have h0 := hcount cid2
              rw [hfound] at h0
              simp only [hact] at h0 ⊢
              simpa using h0
            · rw [alookup_aset_ne _ _ _ _ hcid]
              exact hcount cid2
          · intro cid2 hlt
            rw [length_aset_of_some _ _ _ _ hfound] at hlt
            have hne : cid2 ≠ cid := by
              intro he
              subst he
              rw [hbound cid2 hlt] at hfound
              cases hfound
            rw [alookup_aset_ne _ _ _ _ hne]
            exact hbound cid2 hlt
        · split
          · next e s1 heq =>
            obtain ⟨-, hc1, hm1, -, -, -⟩ := icrc1_transfer_only_balances c
              { from_subaccount := none
                toAcc := { owner := canister_id, subaccount := none }
                amount := amount, fee := none, memo := none, created_at_time := none } s
            rw [heq] at hc1 hm1
            have hc1' : s1.campaigns = s.campaigns := hc1
            have hm1' : s1.mintedRewards = s.mintedRewards := hm1
            rw [hc1', hm1']
            exact ⟨hcount, hbound⟩
          · next v s1 heq =>
            obtain ⟨-, hc1, hm1, -, -, -⟩ := icrc1_transfer_only_balances c
              { from_subaccount := none
                toAcc := { owner := canister_id, subaccount := none }
                amount := amount, fee := none, memo := none, created_at_time := none } s
            rw [heq] at hc1 hm1
            have hc1' : s1.campaigns = s.campaigns := hc1
            have hm1' : s1.mintedRewards = s.mintedRewards := hm1
            split
            · split
              · next e2 hmint =>
                exact absurd hmint (by simp [mint_campaign_rewards])
              · next s4 hmint =>
                simp only [mint_campaign_rewards, Except.ok.injEq] at hmint
                subst hmint
                simp only [hc1', hm1']
                constructor
                · intro cid2
                  by_cases hcid : cid2 = cid
                  · subst hcid
                    rw [alookup_aset_self]
                    have h0 := hcount cid2
                    rw [hfound] at h0
                    simp [hact] at h0
                    simp [List.count_append, h0]
                  · rw [alookup_aset_ne _ _ _ _ hcid,
                      alookup_aset_ne _ _ _ _ hcid]
                    rw [List.count_append]
                    have hc0 : List.count cid2 [cid] = 0 := by
                      simp [List.count_singleton', hcid]
                    rw [hc0]
                    simpa using hcount cid2
                · intro cid2 hlt
                  rw [length_aset_of_some _ _ _ _ (alookup_aset_self s.campaigns cid _),
                    length_aset_of_some _ _ _ _ hfound] at hlt
                  have hne : cid2 ≠ cid := by
                    intro he
                    subst he
                    rw [hbound cid2 hlt] at hfound
                    cases hfound
                  rw [alookup_aset_ne _ _ _ _ hne, alookup_aset_ne _ _ _ _ hne]
                  exact hbound cid2 hlt
            · simp only [hc1', hm1']
              constructor
              · intro cid2
                by_cases hcid : cid2 = cid
                · subst hcid
                  rw [alookup_aset_self]
                  have h0 := hcount cid2
                  rw [hfound] at h0
                  simp only [hact] at h0 ⊢
                  simpa using h0
                · rw [alookup_aset_ne _ _ _ _ hcid]
                  exact hcount cid2
              · intro cid2 hlt
                rw [length_aset_of_some _ _ _ _ hfound] at hlt
                have hne : cid2 ≠ cid := by
                  intro he
                  subst he
                  rw [hbound cid2 hlt] at hfound
                  cases hfound
                rw [alookup_aset_ne _ _ _ _ hne]
                exact hbound cid2 hlt

theorem stateInv_initState (d : Principal) : StateInv (initState d) := by
  refine ⟨?_, ?_, ?_⟩
  · intro pr hpr
    cases hpr
  · intro cid
    rfl
  · intro cid h2
    rfl

theorem stateInv_step (op : Op) (s : State) (h : StateInv s) : StateInv (step op s) := by
  cases op with
  | transferOp c args =>
    obtain ⟨h1, h2, h3, -⟩ := icrc1_transfer_only_balances c args s
    exact inv_of_eq_stores s _ h1 h2 h3 h
  | mintOp c toAcc amount =>
    obtain ⟨h1, h2, h3⟩ := icrc1_mint_stores c toAcc amount s
    exact inv_of_eq_stores s _ h1 h2 h3 h
  | createCampaignOp c now n d target asset duration =>
    exact stateInv_create_campaign c now n d target asset duration s h
  | investOp c now cid amount => exact stateInv_invest c now cid amount s h
  | createRaceOp c n arena fee => exact stateInv_create_race c n arena fee s h
  | joinRaceOp c rid kart driver => exact stateInv_join_race c rid kart driver s h
  | updateProgressOp c rid pos laps =>
    exact stateInv_update_race_progress c rid pos laps s h
  | startRaceOp c rid => exact stateInv_start_race c rid s h
  | endRaceOp c now rid => exact stateInv_end_race c now rid s h
  | distributeOp c rid =>
    obtain ⟨h1, h2, h3, -⟩ := distribute_race_rewards_only_balances c rid s
    exact inv_of_eq_stores s _ h1 h2 h3 h
  | mintNftOp c now n d u t r attrs =>
    obtain ⟨h1, h2, h3, -⟩ := mint_nft_stores c now n d u t r attrs s
    exact inv_of_eq_stores s _ h1 h2 h3 h
  | transferNftOp c now nft toP =>
    obtain ⟨h1, h2, h3, -⟩ := transfer_nft_stores c now nft toP s
    exact inv_of_eq_stores s _ h1 h2 h3 h
  | listNftOp c nft price =>
    obtain ⟨h1, h2, h3, -⟩ := list_nft_stores c nft price s
    exact inv_of_eq_stores s _ h1 h2 h3 h
  | buyNftOp c now nft =>
    obtain ⟨h1, h2, h3, -⟩ := buy_nft_stores c now nft s
    exact inv_of_eq_stores s _ h1 h2 h3 h
  | addAdminOp c p =>
    obtain ⟨h1, h2, h3, -⟩ := add_admin_stores c p s
    exact inv_of_eq_stores s _ h1 h2 h3 h

theorem stateInv_run (s : State) (ops : List Op) (h : StateInv s) :
    StateInv (run s ops) := by
  induction ops generalizing s with
  | nil => exact h
  | cons op rest ih =>
    simp only [run, List.foldl_cons]
    exact ih (step op s) (stateInv_step op s h)

theorem stateInv_reachable (s : State) (h : Reachable s) : StateInv s := by
  obtain ⟨d, ops, rfl⟩ := h
  exact stateInv_run _ _ (stateInv_initState d)

/-- C9 (amended): for every reachable state, every race's `total_prize_pool`
equals `entry_fee * participants.length` as a wrapping u64 product, i.e.
modulo `2 ^ 64` — `create_race` starts the pool at 0 with no participants and
`join_race` is the only operation that changes either field, adding one
participant and one (wrapping) entry fee together after the fee transfer
succeeds. Without the modulus the equality fails (see the counterexample). -/
theorem c9_prize_pool_fee_times_participants (s : State) (h : Reachable s) :
    ∀ pr ∈ s.races,
      (pr : Nat × Race).2.total_prize_pool =
        (pr.2.entry_fee * pr.2.participants.length) % U64MOD :=
  (stateInv_reachable s h).1

/-- The two calls of the C9 witness trace: an admin mints an arena NFT and
creates a race with entry fee 7. -/
def c9Trace : List Op :=
  [Op.mintNftOp 1 0 "arena" "d" "u" NFTType.Arena Rarity.Common [],
   Op.createRaceOp 1 "r" 1 7]

/-- The race produced by the C9 witness trace. -/
def c9Race0 : Race :=
  { id := 1, name := "r", arena_id := 1, participants := []
    status := RaceStatus.Upcoming, winner := none, bets := []
    start_time := none, end_time := none, entry_fee := 7, total_prize_pool := 0 }

/-- Witness for C9: in the reachable state after `c9Trace`, race 1 satisfies
the pool invariant. -/
theorem c9_prize_pool_fee_times_participants_witness :
    (1, c9Race0) ∈ (run (initState 1) c9Trace).races ∧
    c9Race0.total_prize_pool =
      (c9Race0.entry_fee * c9Race0.participants.length) % U64MOD := by
  have hmem : (1, c9Race0) ∈ (run (initState 1) c9Trace).races := by decide
  exact ⟨hmem,
    c9_prize_pool_fee_times_participants _ ⟨1, c9Trace, rfl⟩ (1, c9Race0) hmem⟩

/-- The C9 counterexample trace: the admin mints kart/driver NFTs for players
2, 3, 4, funds each with `2 ^ 63` tokens, creates a race with entry fee
`2 ^ 63`, and all three join. Each pool increment wraps modulo `2 ^ 64`. -/
def c9WrapTrace : List Op :=
  [Op.mintNftOp 1 0 "arena" "d" "u" NFTType.Arena Rarity.Common [],
   Op.mintNftOp 1 0 "k2" "d" "u" NFTType.Kart Rarity.Common [],
   Op.mintNftOp 1 0 "k3" "d" "u" NFTType.Kart Rarity.Common [],
   Op.mintNftOp 1 0 "k4" "d" "u" NFTType.Kart Rarity.Common [],
   Op.mintNftOp 1 0 "d2" "d" "u" NFTType.Driver Rarity.Common [],
   Op.mintNftOp 1 0 "d3" "d" "u" NFTType.Driver Rarity.Common [],
   Op.mintNftOp 1 0 "d4" "d" "u" NFTType.Driver Rarity.Common [],
   Op.transferNftOp 1 0 2 2, Op.transferNftOp 1 0 3 3, Op.transferNftOp 1 0 4 4,
   Op.transferNftOp 1 0 5 2, Op.transferNftOp 1 0 6 3, Op.transferNftOp 1 0 7 4,
   Op.mintOp 1 (mkAccount 2) (2 ^ 63), Op.mintOp 1 (mkAccount 3) (2 ^ 63),
   Op.mintOp 1 (mkAccount 4) (2 ^ 63),
   Op.createRaceOp 1 "r" 1 (2 ^ 63),
   Op.joinRaceOp 2 1 2 5, Op.joinRaceOp 3 1 3 6, Op.joinRaceOp 4 1 4 7]

/-- Counterexample for C9 as frozen: in the reachable state after
`c9WrapTrace`, race 1 has three enrolled participants and entry fee `2 ^ 63`,
but its `total_prize_pool` is `2 ^ 63`, not `entry_fee * 3 = 3 * 2 ^ 63` — the
pool additions wrapped modulo `2 ^ 64`. -/
theorem c9_prize_pool_fee_times_participants_cex :
    Reachable (run (initState 1) c9WrapTrace) ∧
    (alookup (run (initState 1) c9WrapTrace).races 1).map
      (fun r => (r.total_prize_pool, r.entry_fee, r.participants.length)) =
      some (2 ^ 63, 2 ^ 63, 3) ∧
    (2 ^ 63 : Nat) ≠ 2 ^ 63 * 3 := by
  refine ⟨⟨1, c9WrapTrace, rfl⟩, by decide, by decide⟩

/-- C6: in every reachable state the reward-issuance trigger has run at most
once per campaign; and a successful investment in an Active, unexpired
campaign flips the status to Completed exactly when the accumulated amount
first reaches the target: afterwards the campaign is Completed iff
`current_amount + amount ≥ target_amount`. (`mint_campaign_rewards` is
modelled from the spec, as the source file does not define it.) -/
theorem c6_campaign_completes_on_target (s : State) (h : Reachable s) :
    (∀ cid : Nat, s.mintedRewards.count cid ≤ 1) ∧
    (∀ caller : Principal, ∀ now cid amount : Nat,
      ∀ campaign : TokenizationCampaign,
      alookup s.campaigns cid = some campaign →
      campaign.status = CampaignStatus.Active →
      ¬ campaign.end_time < now →
      amount ≤ balD s.balances { owner := caller, subaccount := none } →
      campaign.current_amount + amount < U64MOD →
      ((alookup (invest_in_campaign caller now cid amount s).2.campaigns cid).map
          TokenizationCampaign.status = some CampaignStatus.Completed ↔
        campaign.target_amount ≤ campaign.current_amount + amount)) := by
  constructor
  · intro cid
    have hcount := (stateInv_reachable s h).2.1 cid
    rw [hcount]
    split
    · split
      · exact Nat.le_refl 1
      · exact Nat.zero_le 1
    · exact Nat.zero_le 1
  · intro caller now cid amount campaign hfound hactive hintime hbal hnowrap
    have hwrap : wrapAdd campaign.current_amount amount =
        campaign.current_amount + amount := Nat.mod_eq_of_lt hnowrap
    simp only [invest_in_campaign, hfound]
    rw [hactive]
    simp only [ne_eq, not_true_eq_false, if_false, reduceIte]
    rw [if_neg hintime]
    simp only [icrc1_transfer]
    rw [if_neg (not_lt.mpr hbal)]
    split
    · next e s1 heq =>
      simp at heq
    · next v s1 heq =>
      injection heq with h1 h2
      subst h2
      simp only [hwrap]
      split
      · next hreach =>
        split
        · next e2 hmint =>
          exact Except.noConfusion hmint
        · next s4 hmint =>
          injection hmint with h3
          subst h3
          rw [alookup_aset_self]
          simp only [Option.map_some']
          constructor
          · intro _
            exact hreach
          · intro _
            trivial
      · next hreach =>
        rw [alookup_aset_self]
        simp only [Option.map_some']
        constructor
        · intro hc
          simp [hactive] at hc
        · intro hc
          exact absurd hc hreach

/-- The C6 witness trace, first part: create a campaign with target 1000,
fund investors 2 and 3, and invest 400. -/
def c6TraceA : List Op :=
  [Op.createCampaignOp 1 0 "c" "d" 1000 AssetType.Arena 100,
   Op.mintOp 1 (mkAccount 2) 400, Op.mintOp 1 (mkAccount 3) 700,
   Op.investOp 2 5 1 400]

/-- The C6 witness trace, second part: investor 3 adds 700 (total 1100). -/
def c6TraceB : List Op := c6TraceA ++ [Op.investOp 3 6 1 700]

/-- Witness for C6: after the 400 investment the campaign is still Active;
after the 700 investment (total 1100 ≥ 1000) it is Completed, and the
reward-issuance trigger has run exactly once, hence at most once. -/
theorem c6_campaign_completes_on_target_witness :
    ((alookup (run (initState 1) c6TraceA).campaigns 1).map
        TokenizationCampaign.status = some CampaignStatus.Active) ∧
    ((alookup (run (initState 1) c6TraceB).campaigns 1).map
        TokenizationCampaign.status = some CampaignStatus.Completed) ∧
    (run (initState 1) c6TraceB).mintedRewards = [1] ∧
    (run (initState 1) c6TraceB).mintedRewards.count 1 ≤ 1 := by
  refine ⟨by decide, by decide, by decide, ?_⟩
  exact (c6_campaign_completes_on_target _ ⟨1, c6TraceB, rfl⟩).1 1

/-- Sum of all stored balances. -/
def sumBal (bs : List (Account × Nat)) : Nat := (bs.map Prod.snd).sum

/-- Escrow not yet settled: prize pools of races that are not Completed plus
accumulated amounts of still-Active campaigns. -/
def unsettledEscrow (s : State) : Nat :=
  ((s.races.filter (fun pr => pr.2.status ≠ RaceStatus.Completed)).map
    (fun pr => pr.2.total_prize_pool)).sum +
  ((s.campaigns.filter (fun pr => pr.2.status = CampaignStatus.Active)).map
    (fun pr => pr.2.current_amount)).sum

/-- Is this call one of the two ledger operations of the claim? -/
def isLedgerOp (op : Op) : Bool :=
  match op with
  | Op.transferOp _ _ => true
  | Op.mintOp _ _ _ => true
  | _ => false

/-- Is this call `icrc1_mint`? -/
def isMintOp (op : Op) : Bool :=
  match op with
  | Op.mintOp _ _ _ => true
  | _ => false

theorem sumBal_aset (bs : List (Account × Nat)) (a : Account) (v : Nat) :
    sumBal (aset bs a v) + balD bs a = sumBal bs + v := by
  induction bs with
  | nil => simp [aset, sumBal, balD, alookupD, alookup]
  | cons hd t ih =>
    obtain ⟨k, w⟩ := hd
    by_cases hk : k = a
    · subst hk
      simp [aset, sumBal, balD, alookupD, alookup]
      omega
    · simp only [aset, if_neg hk, sumBal, List.map_cons, List.sum_cons, balD,
        alookupD, alookup, if_neg hk]
      simp only [sumBal, balD, alookupD] at ih
      omega

theorem balD_le_sumBal (bs : List (Account × Nat)) (a : Account) :
    balD bs a ≤ sumBal bs := by
  induction bs with
  | nil => simp [balD, alookupD, alookup, sumBal]
  | cons hd t ih =>
    obtain ⟨k, w⟩ := hd
    by_cases hk : k = a
    · subst hk
      simp only [balD, alookupD, alookup, if_pos rfl, Option.getD_some, sumBal,
        List.map_cons, List.sum_cons]
      exact Nat.le_add_right _ _
    · simp only [balD, alookupD, alookup, if_neg hk, sumBal, List.map_cons,
        List.sum_cons]
      simp only [balD, alookupD, sumBal] at ih
      omega

theorem escrow_congr (s s' : State) (hr : s'.races = s.races)
    (hc : s'.campaigns = s.campaigns) : unsettledEscrow s' = unsettledEscrow s := by
  unfold unsettledEscrow
  rw [hr, hc]

/-- The conservation invariant maintained along transfer/mint-only traces. -/
def ConsInv (s : State) : Prop :=
  s.totalSupply = (sumBal s.balances + unsettledEscrow s) % U64MOD ∧
  s.totalSupply < U64MOD ∧ s.races = [] ∧ s.campaigns = []

theorem consInv_transfer (c : Principal) (args : TransferArgs) (s : State)
    (h : ConsInv s) : ConsInv (icrc1_transfer c args s).2 := by
  obtain ⟨hts, hlt, hr0, hc0⟩ := h
  obtain ⟨hr, hc, -, hsup, -, -⟩ := icrc1_transfer_only_balances c args s
  have hE := escrow_congr s _ hr hc
  refine ⟨?_, ?_, ?_, ?_⟩
  · rw [hsup, hE]
    simp only [icrc1_transfer]
    split
    · exact hts
    · next hge =>
      rw [not_lt] at hge
      set fa : Account := { owner := c, subaccount := args.from_subaccount } with hfa
      set bf := balD s.balances fa with hbf
      set b1 := aset s.balances fa (bf - args.amount) with hb1
      set L := balD b1 args.toAcc with hL
      have h1 : sumBal b1 + bf = sumBal s.balances + (bf - args.amount) := by
        rw [hb1, hbf]
        exact sumBal_aset s.balances fa (bf - args.amount)
      have hble : bf ≤ sumBal s.balances := balD_le_sumBal s.balances fa
      have h2 : sumBal b1 + args.amount = sumBal s.balances := by omega
      have h3 : sumBal (aset b1 args.toAcc (wrapAdd L args.amount)) + L =
          sumBal b1 + wrapAdd L args.amount := sumBal_aset b1 args.toAcc _
      have hmod : (sumBal (aset b1 args.toAcc (wrapAdd L args.amount)) +
          unsettledEscrow s) % U64MOD =
          (sumBal s.balances + unsettledEscrow s) % U64MOD := by
        have m1 : Nat.ModEq U64MOD
            (sumBal (aset b1 args.toAcc (wrapAdd L args.amount)) + L)
            (sumBal b1 + (L + args.amount)) := by
          rw [h3]
          exact Nat.ModEq.add_left _ (Nat.mod_modEq _ _)
        have m2 : Nat.ModEq U64MOD
            (sumBal (aset b1 args.toAcc (wrapAdd L args.amount)) + L)
            ((sumBal b1 + args.amount) + L) := by
          have harr : sumBal b1 + (L + args.amount) =
              (sumBal b1 + args.amount) + L := by omega
          rw [harr] at m1
          exact m1
        have m3 := Nat.ModEq.add_right_cancel' L m2
        rw [h2] at m3
        exact Nat.ModEq.add_right _ m3
      rw [← hts] at hmod
      exact hmod.symm
  · rw [hsup]
    exact hlt
  · rw [hr]
    exact hr0
  · rw [hc]
    exact hc0

theorem consInv_mint (c : Principal) (toAcc : Account) (amount : Nat) (s : State)
    (h : ConsInv s) : ConsInv (icrc1_mint c toAcc amount s).2 := by
  obtain ⟨hts, hlt, hr0, hc0⟩ := h
  simp only [icrc1_mint]
  split
  · exact ⟨hts, hlt, hr0, hc0⟩
  · refine ⟨?_, ?_, ?_, ?_⟩
    · show wrapAdd s.totalSupply amount =
        (sumBal (aset s.balances toAcc (wrapAdd (balD s.balances toAcc) amount)) +
          unsettledEscrow s) % U64MOD
      set L := balD s.balances toAcc with hL
      have h3 := sumBal_aset s.balances toAcc (wrapAdd L amount)
      have m1 : Nat.ModEq U64MOD
          (sumBal (aset s.balances toAcc (wrapAdd L amount)) + L)
          ((sumBal s.balances + amount) + L) := by
        rw [h3]
        simp only [wrapAdd]
        have hmm := Nat.ModEq.add_left (sumBal s.balances)
          (Nat.mod_modEq (L + amount) U64MOD)
        have harr : sumBal s.balances + (L + amount) =
            (sumBal s.balances + amount) + L := by omega
        rw [harr] at hmm
        exact hmm
      have m3 := Nat.ModEq.add_right_cancel' L m1
      have m4 := Nat.ModEq.add_right (unsettledEscrow s) m3
      have hstep : wrapAdd s.totalSupply amount =
          (sumBal s.balances + amount + unsettledEscrow s) % U64MOD := by
        simp only [wrapAdd, hts]
        rw [Nat.mod_add_mod]
        congr 1
        omega
      exact hstep.trans m4.symm
    · exact Nat.mod_lt _ (by decide)
    · exact hr0
    · exact hc0

theorem consInv_initState (d : Principal) : ConsInv (initState d) := by
  refine ⟨rfl, ?_, rfl, rfl⟩
  show (0 : Nat) < U64MOD
  decide

theorem consInv_run (s : State) (ops : List Op)
    (hops : ∀ op ∈ ops, isLedgerOp op = true) (h : ConsInv s) :
    ConsInv (run s ops) := by
  induction ops generalizing s with
  | nil => exact h
  | cons op rest ih =>
    simp only [run, List.foldl_cons]
    have hop := hops op (List.mem_cons_self _ _)
    have hrest : ∀ op2 ∈ rest, isLedgerOp op2 = true :=
      fun op2 h2 => hops op2 (List.mem_cons_of_mem _ h2)
    cases op with
    | transferOp c args => exact ih _ hrest (consInv_transfer c args s h)
    | mintOp c toAcc amount => exact ih _ hrest (consInv_mint c toAcc amount s h)
    | createCampaignOp c now n d target asset duration => cases hop
    | investOp c now cid amount => cases hop
    | createRaceOp c n arena fee => cases hop
    | joinRaceOp c rid kart driver => cases hop
    | updateProgressOp c rid pos laps => cases hop
    | startRaceOp c rid => cases hop
    | endRaceOp c now rid => cases hop
    | distributeOp c rid => cases hop
    | mintNftOp c now n d u t r attrs => cases hop
    | transferNftOp c now nft toP => cases hop
    | listNftOp c nft price => cases hop
    | buyNftOp c now nft => cases hop
    | addAdminOp c p => cases hop

/-- C2 (amended): along every sequence of `icrc1_transfer`/`icrc1_mint` calls
from the freshly-deployed state, `icrc1_total_supply` equals the sum of all
account balances plus the unsettled race/campaign escrow, modulo `2 ^ 64`
(u64 wrap; without the modulus the equality fails, see the counterexample);
no operation other than `icrc1_mint` ever changes the total supply; and
`icrc1_mint` requires AuthorityStore membership, failing with no state change
otherwise. -/
theorem c2_conservation_mod_and_only_mint (d : Principal) (ops : List Op)
    (hops : ∀ op ∈ ops, isLedgerOp op = true) :
    (icrc1_total_supply (run (initState d) ops) =
      (sumBal (run (initState d) ops).balances +
        unsettledEscrow (run (initState d) ops)) % U64MOD) ∧
    (∀ op : Op, ∀ s : State, isMintOp op = false →
      icrc1_total_supply (step op s) = icrc1_total_supply s) ∧
    (∀ c : Principal, ∀ toAcc : Account, ∀ amount : Nat, ∀ s : State,
      is_minting_authority c s = false →
      icrc1_mint c toAcc amount s =
        (Except.error "Not authorized to mint tokens", s)) := by
  refine ⟨?_, ?_, ?_⟩
  · exact (consInv_run _ ops hops (consInv_initState d)).1
  · intro op s hnm
    cases op with
    | transferOp c args => exact (icrc1_transfer_only_balances c args s).2.2.2.1
    | mintOp c toAcc amount => cases hnm
    | createCampaignOp c now n d2 target asset duration =>
      exact (create_tokenization_campaign_stores c now n d2 target asset duration s).2.1
    | investOp c now cid amount => exact (invest_in_campaign_stores c now cid amount s).2
    | createRaceOp c n arena fee => exact (create_race_stores c n arena fee s).2.2
    | joinRaceOp c rid kart driver => exact (join_race_stores c rid kart driver s).2.2
    | updateProgressOp c rid pos laps =>
      exact (update_race_progress_stores c rid pos laps s).2.2
    | startRaceOp c rid => exact (start_race_stores c rid s).2.2
    | endRaceOp c now rid => exact (end_race_stores c now rid s).2.2
    | distributeOp c rid => exact (distribute_race_rewards_only_balances c rid s).2.2.2.1
    | mintNftOp c now n d2 u t r attrs =>
      exact (mint_nft_stores c now n d2 u t r attrs s).2.2.2
    | transferNftOp c now nft toP => exact (transfer_nft_stores c now nft toP s).2.2.2
    | listNftOp c nft price => exact (list_nft_stores c nft price s).2.2.2
    | buyNftOp c now nft => exact (buy_nft_stores c now nft s).2.2.2
    | addAdminOp c p => exact (add_admin_stores c p s).2.2.2
  · intro c toAcc amount s hauth
    simp only [icrc1_mint, hauth]
    simp

/-- The C2 counterexample trace: two authorized mints of `2 ^ 63` each. -/
def c2WrapTrace : List Op :=
  [Op.mintOp 1 (mkAccount 2) (2 ^ 63), Op.mintOp 1 (mkAccount 3) (2 ^ 63)]

/-- Counterexample for C2 as frozen: after two mints of `2 ^ 63`, the balances
sum to `2 ^ 64` while `icrc1_total_supply` has wrapped to 0, so the claimed
exact equality fails (it holds only modulo `2 ^ 64`). -/
theorem c2_conservation_cex :
    (∀ op ∈ c2WrapTrace, isLedgerOp op = true) ∧
    icrc1_total_supply (run (initState 1) c2WrapTrace) = 0 ∧
    sumBal (run (initState 1) c2WrapTrace).balances +
      unsettledEscrow (run (initState 1) c2WrapTrace) = 2 ^ 64 ∧
    (0 : Nat) ≠ 2 ^ 64 := by
  refine ⟨by decide, by decide, by decide, by decide⟩

/-- The small ledger-only trace of the C2 witness: mint 5 to account 2, then
account 2 transfers 2 to account 3. -/
def c2Trace : List Op :=
  [Op.mintOp 1 (mkAccount 2) 5,
   Op.transferOp 2
     { from_subaccount := none, toAcc := mkAccount 3, amount := 2, fee := none
       memo := none, created_at_time := none }]

/-- Witness for C2: on the concrete ledger-only trace the supply (5) equals
the balance sum plus escrow mod `2 ^ 64`; a `create_race` call leaves the
supply unchanged; an unauthorized mint fails and changes nothing. -/
theorem c2_conservation_mod_and_only_mint_witness :
    (icrc1_total_supply (run (initState 1) c2Trace) =
      (sumBal (run (initState 1) c2Trace).balances +
        unsettledEscrow (run (initState 1) c2Trace)) % U64MOD) ∧
    (icrc1_total_supply (step (Op.createRaceOp 1 "r" 1 7) (run (initState 1) c2Trace)) =
      icrc1_total_supply (run (initState 1) c2Trace)) ∧
    (icrc1_mint 9 (mkAccount 9) 1000 (run (initState 1) c2Trace) =
      (Except.error "Not authorized to mint tokens", run (initState 1) c2Trace)) := by
  have h := c2_conservation_mod_and_only_mint 1 c2Trace (by decide)
  exact ⟨h.1, h.2.1 (Op.createRaceOp 1 "r" 1 7) _ (by decide),
    h.2.2 9 (mkAccount 9) 1000 _ (by decide)⟩

/-- No race in the store is Completed. This is invariant in the program: the
only writer of `RaceStatus.Completed` is `end_race`, and its writes are
always reverted by the `BorrowMutError` trap. -/
def NoCompletedRace (s : State) : Prop :=
  ∀ pr ∈ s.races, (pr : Nat × Race).2.status ≠ RaceStatus.Completed

theorem noCompleted_of_races_eq (s s' : State) (hr : s'.races = s.races)
    (h : NoCompletedRace s) : NoCompletedRace s' := by
  unfold NoCompletedRace at *
  rw [hr]
  exact h

theorem noCompleted_aset (races : List (Nat × Race)) (rid : Nat) (r : Race)
    (hall : ∀ pr ∈ races, (pr : Nat × Race).2.status ≠ RaceStatus.Completed)
    (hr : r.status ≠ RaceStatus.Completed) :
    ∀ pr ∈ aset races rid r,
      (pr : Nat × Race).2.status ≠ RaceStatus.Completed := by
  intro pr hpr
  rcases mem_aset _ _ _ _ hpr with h1 | h1
  · subst h1
    exact hr
  · exact hall pr h1

theorem noCompleted_create_race (c : Principal) (n : String) (arena fee : Nat)
    (s : State) (h : NoCompletedRace s) :
    NoCompletedRace (create_race c n arena fee s).2 := by
  simp only [NoCompletedRace, create_race]
  split
  · exact h
  · split
    · exact h
    · split
      · exact h
      · exact noCompleted_aset s.races _ _ h (by simp)

theorem noCompleted_start_race (c : Principal) (rid : Nat) (s : State)
    (h : NoCompletedRace s) : NoCompletedRace (start_race c rid s).2 := by
  simp only [NoCompletedRace, start_race]
  split
  · exact h
  · split
    · exact h
    · next race hfound =>
      split
      · exact h
      · exact noCompleted_aset s.races rid _ h (by simp)

theorem noCompleted_update_race_progress (c : Principal) (rid : Nat)
    (pos laps : List (Principal × Nat)) (s : State) (h : NoCompletedRace s) :
    NoCompletedRace (update_race_progress c rid pos laps s).2 := by
  simp only [NoCompletedRace, update_race_progress]
  split
  · exact h
  · split
    · exact h
    · next race hfound =>
      split
      · exact h
      · exact noCompleted_aset s.races rid _ h
          (h (rid, race) (alookup_mem _ _ _ hfound))

theorem noCompleted_join_race (c : Principal) (rid kart driver : Nat) (s : State)
    (h : NoCompletedRace s) : NoCompletedRace (join_race c rid kart driver s).2 := by
  simp only [NoCompletedRace, join_race]
  split
  · exact h
  · split
    · exact h
    · split
      · exact h
      · next race hfound =>
        split
        · exact h
        · split
          · exact h
          · split
            · next e s1 heq =>
              obtain ⟨htr, -⟩ := icrc1_transfer_only_balances c
                { from_subaccount := none
                  toAcc := { owner := canister_id, subaccount := none }
                  amount := race.entry_fee, fee := none, memo := none
                  created_at_time := none } s
              rw [heq] at htr
              have hs1 : s1.races = s.races := htr
              intro pr hpr
              have hpr1 : pr ∈ s1.races := hpr
              rw [hs1] at hpr1
              exact h pr hpr1
            · next v s1 heq =>
              obtain ⟨htr, -⟩ := icrc1_transfer_only_balances c
                { from_subaccount := none
                  toAcc := { owner := canister_id, subaccount := none }
                  amount := race.entry_fee, fee := none, memo := none
                  created_at_time := none } s
              rw [heq] at htr
              have hs1 : s1.races = s.races := htr
              intro pr hpr
              have hpr1 : pr ∈ aset s1.races rid
                  { race with
                      total_prize_pool := wrapAdd race.total_prize_pool race.entry_fee
                      participants := race.participants ++
                        [{ player := c, kart_id := kart, driver_id := driver
                           current_position := 0, lap_times := [] }] } := hpr
              rw [hs1] at hpr1
              refine noCompleted_aset s.races rid _ h ?_ pr hpr1
              exact h (rid, race) (alookup_mem _ _ _ hfound)

theorem noCompleted_step (op : Op) (s : State) (h : NoCompletedRace s) :
    NoCompletedRace (step op s) := by
  cases op with
  | transferOp c args =>
    exact noCompleted_of_races_eq s _ (icrc1_transfer_only_balances c args s).1 h
  | mintOp c toAcc amount =>
    exact noCompleted_of_races_eq s _ (icrc1_mint_stores c toAcc amount s).1 h
  | createCampaignOp c now n d target asset duration =>
    exact noCompleted_of_races_eq s _
      (create_tokenization_campaign_stores c now n d target asset duration s).1 h
  | investOp c now cid amount =>
    exact noCompleted_of_races_eq s _ (invest_in_campaign_stores c now cid amount s).1 h
  | createRaceOp c n arena fee => exact noCompleted_create_race c n arena fee s h
  | joinRaceOp c rid kart driver => exact noCompleted_join_race c rid kart driver s h
  | updateProgressOp c rid pos laps =>
    exact noCompleted_update_race_progress c rid pos laps s h
  | startRaceOp c rid => exact noCompleted_start_race c rid s h
  | endRaceOp c now rid =>
    exact noCompleted_of_races_eq s _
      (by simp only [step]; rw [end_race_state]) h
  | distributeOp c rid =>
    exact noCompleted_of_races_eq s _ (distribute_race_rewards_only_balances c rid s).1 h
  | mintNftOp c now n d u t r attrs =>
    exact noCompleted_of_races_eq s _ (mint_nft_stores c now n d u t r attrs s).1 h
  | transferNftOp c now nft toP =>
    exact noCompleted_of_races_eq s _ (transfer_nft_stores c now nft toP s).1 h
  | listNftOp c nft price =>
    exact noCompleted_of_races_eq s _ (list_nft_stores c nft price s).1 h
  | buyNftOp c now nft =>
    exact noCompleted_of_races_eq s _ (buy_nft_stores c now nft s).1 h
  | addAdminOp c p =>
    exact noCompleted_of_races_eq s _ (add_admin_stores c p s).1 h

theorem noCompleted_run (s : State) (ops : List Op) (h : NoCompletedRace s) :
    NoCompletedRace (run s ops) := by
  induction ops generalizing s with
  | nil => exact h
  | cons op rest ih =>
    simp only [run, List.foldl_cons]
    exact ih (step op s) (noCompleted_step op s h)

/-- C1 (bug exhibit): settlement never completes. At the failing input,
`end_race` traps (nested `RACES` `borrow_mut` panic) and rolls back, leaving
the race InProgress and every balance untouched; a second call traps
identically rather than failing with an invalid-state error; the direct
`distribute_race_rewards` call then fails with "Race is not completed".
In general `end_race` never changes the state, and along every call sequence
from deployment no race is ever Completed — so the settlement the claim
speaks of (and the settlement-completed marker it requires) never happens,
and `distribute_race_rewards` guards re-entry only by a `status == Completed`
check on a status no execution can produce. -/
theorem c1_settlement_never_completes :
    (end_race 1 999 1 c1State = (EndRaceOutcome.trap, c1State)) ∧
    (end_race 1 999 1 (end_race 1 999 1 c1State).2 = (EndRaceOutcome.trap, c1State)) ∧
    (distribute_race_rewards 1 1 (end_race 1 999 1 c1State).2 =
      (Except.error "Race is not completed", c1State)) ∧
    (∀ c : Principal, ∀ now rid : Nat, ∀ s : State, (end_race c now rid s).2 = s) ∧
    (∀ d : Principal, ∀ ops : List Op,
      (run (initState d) ops).races.filter
        (fun pr => pr.2.status = RaceStatus.Completed) = []) := by
  refine ⟨by decide, by decide, by decide, end_race_state, ?_⟩
  intro d ops
  have hinv : NoCompletedRace (run (initState d) ops) := by
    refine noCompleted_run _ ops ?_
    intro pr hpr
    cases hpr
  rw [List.filter_eq_nil_iff]
  intro pr hpr
  simpa using hinv pr hpr
